import Mathlib

/-
Verification of the ExtaLife protocol/connection engine (`extalife/pyextalife.py`)
against its natural-language specification.

The development shallowly embeds the relevant parts of the source:
  * a model of Python JSON-ish values and (ordered, unique-key) dicts,
  * the channel/device Transformer `ExtaLifeAPI._transform_channels`,
  * the framing codec (`ExtaLifeRequest.to_string`/`to_bytes` and the
    string branch of `ExtaLifeResponse.__init__`),
  * the command correlator of `ExtaLifeConn._async_send_request`
    (the `on_response` closure and the sliding-timeout wait loop),
  * the close/disconnect state machine of `ExtaLifeConn._async_close`,
  * the API facade command wrappers (`async_exec_command`, `async_restart`,
    `async_check_version`, `async_get_config_backup`,
    `async_get_config_details`, `async_get_channels`).

Python exceptions are modelled with `Except`; `Option` models `None`.
Timestamps are rationals (seconds); the source's 0.3-second fudge factor
appears literally as `3/10`.
-/

namespace ExtaLife

/-! ## Python value model -/

/-- A JSON-ish Python value: `None`, `bool`, `int`, `str`, `list`, `dict`.
Dicts are ordered association lists; all dicts built by the modelled code
have unique keys, and lookup returns the first (hence only) match. -/
inductive PyVal where
  | pynone : PyVal
  | pybool : Bool → PyVal
  | pyint : Int → PyVal
  | pystr : String → PyVal
  | pylist : List PyVal → PyVal
  | pydict : List (String × PyVal) → PyVal

/-- An ordered Python dict (insertion order preserved, keys unique). -/
abbrev PyDict := List (String × PyVal)

/-- A Python exception, as raised by the code paths modelled here. -/
inductive PyErr where
  | keyError (key : Option String)
  | indexError
  | typeError
  | valueError
  | attributeError
  deriving DecidableEq

/-- Python `d.get(k)` / `d[k]` lookup: first (only) binding of `k`. -/
def dictGet? (d : PyDict) (k : String) : Option PyVal :=
  (d.find? (fun p => p.1 = k)).map (fun p => p.2)

/-- Python `d[k] = v`: replace in place when the key exists (keeping its
position, as CPython dicts do), otherwise append at the end. -/
def dictSet : PyDict → String → PyVal → PyDict
  | [], k, v => [(k, v)]
  | (k', v') :: rest, k, v =>
    if k' = k then (k', v) :: rest else (k', v') :: dictSet rest k v

/-- Python `d.pop(k)` (the removal part): drop every binding of `k`. -/
def dictPop (d : PyDict) (k : String) : PyDict :=
  d.filter (fun p => ¬ p.1 = k)

/-- Python `{**a, **b}`: keys of `a` keep their positions (with `b`'s value
when `b` also binds the key), then keys only in `b` follow in `b`'s order.
On key collision the SECOND dict (`b`) wins. -/
def dictMerge (a b : PyDict) : PyDict :=
  a.map (fun p => (p.1, (dictGet? b p.1).getD p.2)) ++
    b.filter (fun p => (dictGet? a p.1).isNone)

/-- Python `str(...)` on the scalar values the Transformer applies it to
(device ids and channel numbers: ints, strings, `None`, bools). Containers
never reach `str` in the modelled code paths; they render JSON-ish. -/
def pyStr : PyVal → String
  | .pynone => "None"
  | .pybool true => "True"
  | .pybool false => "False"
  | .pyint n => toString n
  | .pystr s => s
  | .pylist _ => "[...]"
  | .pydict _ => "\x7b...\x7d"

/-- Python `int(...)` on the values the code converts: ints pass through,
booleans become 0/1, decimal strings parse, anything else raises. -/
def pyInt? : PyVal → Except PyErr Int
  | .pyint n => .ok n
  | .pybool b => .ok (if b then 1 else 0)
  | .pystr s => match s.toInt? with
      | some n => .ok n
      | Option.none => .error .valueError
  | _ => .error .typeError

/-- Python truthiness: `None`, `False`, `0`, `""`, `[]`, `\x7b\x7d` are falsy. -/
def pyTruthy : PyVal → Bool
  | .pynone => false
  | .pybool b => b
  | .pyint n => !(n == 0)
  | .pystr s => !(s == "")
  | .pylist xs => !xs.isEmpty
  | .pydict d => !d.isEmpty

/-! ## Transformer (`ExtaLifeAPI._transform_channels`) -/

/-- One output record of the Transformer: `\x7b"id": ..., "data": ...\x7d`. -/
structure Channel where
  id : String
  data : PyDict

/-- The preparation of the per-device dict in `_transform_channels`:
`dev = device.copy()`; the Exta-Free `type` remap (`exta_free_device is True`
at device level reads `int(dev["state"][0]["exta_free_type"]) + 300`); then
`dev.pop("state")` (raising `KeyError` when absent). Fallible subscripts
raise (modelled as `Except`). -/
def transformDevicePrep (device : PyDict) : Except PyErr PyDict := do
  let dev := device
  let dev ← (
    match dictGet? dev "exta_free_device" with
    | some (.pybool true) =>
      match dictGet? dev "state" with
      | some (.pylist (state0 :: _)) =>
        match state0 with
        | .pydict st0 =>
          match dictGet? st0 "exta_free_type" with
          | some v => do
            let n ← pyInt? v
            pure (dictSet dev "type" (.pyint (n + 300)))
          | Option.none => throw (.keyError (some "exta_free_type"))
        | _ => throw .typeError
      | some (.pylist []) => throw .indexError
      | some _ => throw .typeError
      | Option.none => throw (.keyError (some "state"))
    | _ => pure dev)
  if (dictGet? dev "state").isNone then
    throw (.keyError (some "state"))
  pure (dictPop dev "state")

/-- The remaining body of the per-device loop: one channel per entry of
`device["state"]`, with id
`str(device["id"]) + "-" + str(state.get("channel", def_channel))` and data
`\x7b**state, **dev\x7d` for the prepared `dev`. -/
def transformDevice (defChannel : PyVal) (device : PyDict) :
    Except PyErr (List Channel) := do
  let dev ← transformDevicePrep device
  match dictGet? device "state" with
  | some (.pylist states) =>
    match dictGet? device "id" with
    | some devId =>
      states.mapM (fun state =>
        match state with
        | .pydict st =>
          pure { id := pyStr devId ++ "-" ++ pyStr ((dictGet? st "channel").getD defChannel)
                 data := dictMerge st dev }
        | _ => throw .typeError)
    | Option.none => throw (.keyError (some "id"))
  | some _ => throw .typeError
  | Option.none => throw (.keyError (some "state"))

/-- `ExtaLifeAPI._transform_channels(data_list, dummy_channel)`:
`def_channel = "#" if dummy_channel else None`; for each `data` in the list,
iterate `data["devices"]` and emit the per-device channels. A missing
`"devices"` key raises `KeyError` (unhandled in the source). -/
def transformChannels (dataList : List PyVal) (dummyChannel : Bool) :
    Except PyErr (List Channel) := do
  let defChannel : PyVal := if dummyChannel then .pystr "#" else .pynone
  let mut channels : List Channel := []
  for data in dataList do
    match data with
    | .pydict d =>
      match dictGet? d "devices" with
      | some (.pylist devices) =>
        for device in devices do
          match device with
          | .pydict dev => channels := channels ++ (← transformDevice defChannel dev)
          | _ => throw .typeError
      | some _ => throw .typeError
      | Option.none => throw (.keyError (some "devices"))
    | _ => throw .typeError
  return channels

/-! ## Command and status catalogs -/

/-- The command catalog (`ExtaLifeCmd(IntEnum)`), numeric codes as in the source. -/
inductive ExtaLifeCmd where
  | NOOP
  | LOGIN
  | ACTIVATE_SCENE
  | CONTROL_DEVICE
  | DOWNLOAD_BACKUP
  | FETCH_EXTA_FREE
  | FETCH_NETWORK_SETTINGS
  | FETCH_RECEIVERS
  | FETCH_RECEIVER_CONFIG
  | FETCH_RECEIVER_CONFIG_DETAILS
  | FETCH_SENSORS
  | FETCH_TRANSMITTERS
  | GET_EFC_CONFIG_DETAILS
  | RESTART
  | CHECK_VERSION
  deriving DecidableEq

/-- Numeric value of each command, as fixed by the firmware. -/
def ExtaLifeCmd.toInt : ExtaLifeCmd → Int
  | .NOOP => 0
  | .LOGIN => 1
  | .ACTIVATE_SCENE => 44
  | .CONTROL_DEVICE => 20
  | .DOWNLOAD_BACKUP => 500
  | .FETCH_EXTA_FREE => 203
  | .FETCH_NETWORK_SETTINGS => 102
  | .FETCH_RECEIVERS => 37
  | .FETCH_RECEIVER_CONFIG => 25
  | .FETCH_RECEIVER_CONFIG_DETAILS => 27
  | .FETCH_SENSORS => 38
  | .FETCH_TRANSMITTERS => 39
  | .GET_EFC_CONFIG_DETAILS => 154
  | .RESTART => 150
  | .CHECK_VERSION => 151

/-- `ExtaLifeCmd(n)`: look a numeric code up in the catalog; unknown codes
raise `ValueError` (modelled as `Option.none`). -/
def ExtaLifeCmd.ofInt? (n : Int) : Option ExtaLifeCmd :=
  [ExtaLifeCmd.NOOP, .LOGIN, .ACTIVATE_SCENE, .CONTROL_DEVICE, .DOWNLOAD_BACKUP,
   .FETCH_EXTA_FREE, .FETCH_NETWORK_SETTINGS, .FETCH_RECEIVERS,
   .FETCH_RECEIVER_CONFIG, .FETCH_RECEIVER_CONFIG_DETAILS, .FETCH_SENSORS,
   .FETCH_TRANSMITTERS, .GET_EFC_CONFIG_DETAILS, .RESTART,
   .CHECK_VERSION].find? (fun c => c.toInt = n)

/-- The response status catalog (`ExtaLifeResponseStatus(StrEnum)`). -/
inductive ExtaLifeResponseStatus where
  | SUCCESS
  | SEARCHING
  | FAILURE
  | PARTIAL
  | NOTIFICATION
  | BROADCAST
  | VALIDATION
  | PROGRESS
  deriving DecidableEq

/-- The string value of each status, as on the wire. -/
def ExtaLifeResponseStatus.toStr : ExtaLifeResponseStatus → String
  | .SUCCESS => "success"
  | .SEARCHING => "searching"
  | .FAILURE => "failure"
  | .PARTIAL => "partial"
  | .NOTIFICATION => "notification"
  | .BROADCAST => "broadcast"
  | .VALIDATION => "validation"
  | .PROGRESS => "progress"

/-- `ExtaLifeResponseStatus(s)`: look a status string up; unknown strings
raise `ValueError` (modelled as `Option.none`). -/
def ExtaLifeResponseStatus.ofStr? (s : String) : Option ExtaLifeResponseStatus :=
  [ExtaLifeResponseStatus.SUCCESS, .SEARCHING, .FAILURE, .PARTIAL,
   .NOTIFICATION, .BROADCAST, .VALIDATION, .PROGRESS].find?
    (fun st => st.toStr = s)

/-! ## Response envelope (`ExtaLifeResponse`) -/

/-- A decoded response envelope: command, status, and the ordered `_data`
fragment list. A single decoded frame has a one-element `data` list; the
combined response of an exchange concatenates the fragments of its frames. -/
structure ExtaLifeResponse where
  command : ExtaLifeCmd
  status : ExtaLifeResponseStatus
  data : List PyVal

/-- The list branch of `ExtaLifeResponse.__init__`: command and status come
from the LAST frame, `_data` is the concatenation of the frames' fragment
lists in order. Only ever applied to non-empty frame lists (the source
indexes `response[-1]`); the defaults for `[]` are never observable. -/
def combineResponses (frames : List ExtaLifeResponse) : ExtaLifeResponse :=
  { command := ((frames.getLast?).map (fun f => f.command)).getD .NOOP
    status := ((frames.getLast?).map (fun f => f.status)).getD .FAILURE
    data := (frames.map (fun f => f.data)).flatten }

/-- `ExtaLifeResponse.error_code`: on a FAILURE status with at least one
fragment, `int(data[0]["code"])`; otherwise the vendor SUCCESS code 0xFFFF.
(The source wraps the number in the `ExtaLifeCmdErrorCode` enum; the claims
only concern the numeric value, so the model keeps the integer.) -/
def responseErrorCode (r : ExtaLifeResponse) : Except PyErr Int :=
  if r.status = .FAILURE ∧ 0 < r.data.length then
    match r.data.head? with
    | some (.pydict d) =>
      match dictGet? d "code" with
      | some v => pyInt? v
      | Option.none => throw (.keyError (some "code"))
    | _ => throw .typeError
  else .ok 0xFFFF

/-- `ExtaLifeResponse.__getitem__`: `r[i]` yields `data[i]` when
`0 ≤ i < length`, otherwise raises `KeyError()`. -/
def responseItem (r : ExtaLifeResponse) (i : Nat) : Except PyErr PyVal :=
  match r.data.get? i with
  | some v => .ok v
  | Option.none => throw (.keyError Option.none)

/-! ## Command correlator (`ExtaLifeConn._async_send_request.on_response`) -/

/-- The state of one pending `send_and_await` exchange: the accumulated
fragment frames, whether the waiter future has been resolved (`done()`),
how many times `set_result` has fired, and the `last_response` activity
timestamp (seconds, rational). -/
structure AwaitState where
  responses : List ExtaLifeResponse
  resolved : Bool
  resolveCount : Nat
  lastResponse : ℚ

/-- The fresh state created by `_async_send_request` before registering its
handler: empty fragment list, unresolved future, `last_response = now`. -/
def initAwaitState (now : ℚ) : AwaitState :=
  { responses := [], resolved := false, resolveCount := 0, lastResponse := now }

/-- The `on_response` closure: ignore the frame when the future is done or
the command differs; a NOTIFICATION frame only refreshes `last_response`
(the source's `status in ExtaLifeResponseStatus.NOTIFICATION` is a StrEnum
substring test that coincides with equality, since no status value is a
proper substring of "notification"); SEARCHING/PARTIAL/PROGRESS refresh
`last_response` and append; SUCCESS/FAILURE append and resolve the future. -/
def onResponse (reqCmd : ExtaLifeCmd) (now : ℚ) (st : AwaitState)
    (f : ExtaLifeResponse) : AwaitState :=
  if st.resolved = true ∨ f.command ≠ reqCmd then st
  else if f.status = .NOTIFICATION then { st with lastResponse := now }
  else if f.status = .SEARCHING ∨ f.status = .PARTIAL ∨ f.status = .PROGRESS then
    { st with lastResponse := now, responses := st.responses ++ [f] }
  else if f.status = .SUCCESS ∨ f.status = .FAILURE then
    { st with responses := st.responses ++ [f], resolved := true,
              resolveCount := st.resolveCount + 1 }
  else st

/-- One step of `_async_read_task` dispatch for a decoded frame: a
NOTIFICATION-status frame is forwarded to the notification event sink, and
the frame is then handed to every registered handler (the dispatch is not
guarded by an `else` in the source). Returns the stepped handler state and
the frames forwarded to the notification subscriber. -/
def readDispatch (reqCmd : ExtaLifeCmd) (now : ℚ) (st : AwaitState)
    (f : ExtaLifeResponse) : AwaitState × List ExtaLifeResponse :=
  (onResponse reqCmd now st f,
   if f.status = .NOTIFICATION then [f] else [])

/-- Dispatch a timed sequence of frames to the handler in arrival order
(the single read loop hands frames over in exactly this order). -/
def runFrames (reqCmd : ExtaLifeCmd) (st : AwaitState)
    (events : List (ℚ × ExtaLifeResponse)) : AwaitState :=
  events.foldl (fun s e => onResponse reqCmd e.1 s e.2) st

/-! ## The sliding-timeout wait loop (`_async_send_request`) -/

/-- Feed the handler every event arriving strictly before the timer deadline
`fire`; return the stepped state and the remaining (later) events. Event
lists are consumed in arrival order (times increasing). -/
def feedUntil (reqCmd : ExtaLifeCmd) (fire : ℚ) (st : AwaitState) :
    List (ℚ × ExtaLifeResponse) → AwaitState × List (ℚ × ExtaLifeResponse)
  | [] => (st, [])
  | e :: rest =>
    if e.1 < fire then feedUntil reqCmd fire (onResponse reqCmd e.1 st e.2) rest
    else (st, e :: rest)

/-- Outcome of the `_async_send_request` wait loop: a normal return with the
accumulated fragment list, or a timeout at a given instant — in which case
the source force-closes the connection and raises `ExtaLifeConnError`. -/
inductive RunResult where
  | success (responses : List ExtaLifeResponse)
  | connTimeout (atTime : ℚ)

/-- The `while True: await asyncio.wait_for(response_reader, timeout)` loop.
Each cycle arms a timer `timeout` seconds after `armTime`; frames arriving
before it fire are dispatched to `on_response`. If the future resolved, the
fragment list is returned. Otherwise the timer fires and the source checks
`(now - last_response) - 0.3 > timeout`: on failure of that check it re-arms
a fresh future, on success it closes the connection and raises. `fuel`
bounds the number of cycles (`Option.none` = fuel exhausted, never reached
by the theorems below). -/
def runAwait (reqCmd : ExtaLifeCmd) (timeout : ℚ) :
    Nat → AwaitState → ℚ → List (ℚ × ExtaLifeResponse) → Option RunResult
  | 0, _, _, _ => Option.none
  | fuel + 1, st, armTime, events =>
    let fire := armTime + timeout
    let p := feedUntil reqCmd fire st events
    if p.1.resolved then some (.success p.1.responses)
    else if (fire - p.1.lastResponse) - 3/10 > timeout then some (.connTimeout fire)
    else runAwait reqCmd timeout fuel p.1 fire p.2

/-- `_async_send_request` on a scripted stream of incoming frames: the
request is written at time 0 with `last_response = now = 0`, and the first
timer cycle is armed immediately. -/
def sendAndAwaitRun (reqCmd : ExtaLifeCmd) (timeout : ℚ) (fuel : Nat)
    (events : List (ℚ × ExtaLifeResponse)) : Option RunResult :=
  runAwait reqCmd timeout fuel (initAwaitState 0) 0 events

/-! ## Connection-level and API-level command execution -/

/-- An error of the `ExtaLifeError` hierarchy, as raised by the modelled
paths: `ExtaLifeConnError` (connection/timeout trouble) or
`ExtaLifeCmdError` (a FAILURE response converted to an exception). -/
inductive ExtaLifeErrorM where
  | connError (message : String)
  | cmdError (command : ExtaLifeCmd) (code : Int)

/-- `ExtaLifeConn.async_exec_command`: run the exchange; an empty fragment
list raises `ExtaLifeConnError("exec_command failed, no response received
from Controller")`; otherwise the frames are combined into one response.

A FAILURE-status terminal frame is NOT checked here: the combined response
is returned as-is (`_check_success` is only invoked by `async_login`). -/
def connExecCommand (fragments : List ExtaLifeResponse) :
    Except ExtaLifeErrorM ExtaLifeResponse :=
  if fragments.length = 0 then
    .error (.connError "exec_command failed, no response received from Controller")
  else
    .ok (combineResponses fragments)

/-- The outcome of one scripted connection-level exchange, as seen by
`ExtaLifeAPI`: either the connection layer raised an `ExtaLifeError`, or it
returned a (possibly FAILURE-status) combined response. -/
inductive ConnExchange where
  | raised (e : ExtaLifeErrorM)
  | answered (r : ExtaLifeResponse)

/-- `ExtaLifeAPI.async_exec_command`: returns `None` when not connected;
catches every `ExtaLifeError` from the connection layer, logs it and
returns `None`; otherwise forwards the response. -/
def apiExecCommand (connected : Bool) (x : ConnExchange) : Option ExtaLifeResponse :=
  if connected = false then Option.none
  else match x with
    | .raised _ => Option.none
    | .answered r => some r

/-! ## API facade command wrappers -/

/-- `ExtaLifeAPI.async_restart`: logs `response.status.name` and returns
`True` exactly when the status is SUCCESS, otherwise `False`. When the
facade-level exec returned `None` (connection error was swallowed), the
`response.status` attribute access raises `AttributeError` — the
`except ExtaLifeCmdError` clause does not catch it, and nothing inside the
`try` block ever raises `ExtaLifeCmdError`. -/
def asyncRestart (r : Option ExtaLifeResponse) : Except PyErr Bool :=
  match r with
  | Option.none => .error .attributeError
  | some resp => .ok (decide (resp.status = .SUCCESS))

/-- `ExtaLifeAPI.async_check_version`: `if response: return response[0]`,
else `None`. A response object is always truthy; `response[0]` raises
`KeyError` on an empty fragment list. -/
def asyncCheckVersion (r : Option ExtaLifeResponse) : Except PyErr (Option PyVal) :=
  match r with
  | Option.none => .ok Option.none
  | some resp => (responseItem resp 0).map some

/-- `ExtaLifeAPI.async_get_config_details`: identical shape to
`async_check_version` — first fragment or `None`. -/
def asyncGetConfigDetails (r : Option ExtaLifeResponse) : Except PyErr (Option PyVal) :=
  match r with
  | Option.none => .ok Option.none
  | some resp => (responseItem resp 0).map some

/-- `ExtaLifeAPI.async_get_config_backup`: keep the fragments whose
`"data_element"` entry is truthy (`frame.get` on a non-dict fragment raises
`AttributeError`); return them when any survive, else `None`. -/
def asyncGetConfigBackup (r : Option ExtaLifeResponse) :
    Except PyErr (Option (List PyVal)) :=
  match r with
  | Option.none => .ok Option.none
  | some resp => do
    let checked ← resp.data.mapM (fun frame =>
      match frame with
      | .pydict d =>
        Except.ok (pyTruthy ((dictGet? d "data_element").getD .pynone), frame)
      | _ => throw PyErr.attributeError)
    let result := (checked.filter (fun p => p.1)).map (fun p => p.2)
    if result.isEmpty then .ok Option.none else .ok (some result)

/-! ## Channel fetching (`ExtaLifeAPI.async_get_channels`) -/

/-- The inner `_async_get_channels` helper for one category: skip when not
connected; skip when the facade-level exec yielded `None` (a swallowed
`ExtaLifeError`); otherwise extend the fragment list with `more_data` when
that is a list, and feed everything through the Transformer — whose
exceptions (e.g. `KeyError("devices")` on a FAILURE fragment) propagate. -/
def fetchCategoryChannels (script : ExtaLifeCmd → ConnExchange) (connected : Bool)
    (command : ExtaLifeCmd) (dummyChannel : Bool) (moreData : Option (List PyVal)) :
    Except PyErr (List Channel) :=
  if connected = false then .ok []
  else match apiExecCommand connected (script command) with
    | Option.none => .ok []
    | some resp => transformChannels (resp.data ++ moreData.getD []) dummyChannel

/-- `ExtaLifeAPI.async_get_channels`: one fetch per requested category, in
the fixed order receivers, sensors, transmitters, exta-free receivers,
concatenating the transformed channels. The `FAKE_*` lists are empty (the
optional `fake_channels` module is absent, taking the `ImportError` path),
so `more_data` is the empty list for the first three categories and `None`
for the legacy-protocol one. -/
def asyncGetChannels (script : ExtaLifeCmd → ConnExchange) (connected : Bool)
    (includeCats : List String) : Except PyErr (List Channel) := do
  let mut channels : List Channel := []
  if includeCats.contains "receivers" then
    channels := channels ++
      (← fetchCategoryChannels script connected .FETCH_RECEIVERS false (some []))
  if includeCats.contains "sensors" then
    channels := channels ++
      (← fetchCategoryChannels script connected .FETCH_SENSORS false (some []))
  if includeCats.contains "transmitters" then
    channels := channels ++
      (← fetchCategoryChannels script connected .FETCH_TRANSMITTERS true (some []))
  if includeCats.contains "exta_free_receivers" then
    channels := channels ++
      (← fetchCategoryChannels script connected .FETCH_EXTA_FREE false Option.none)
  return channels

/-! ## Close / disconnect state machine (`ExtaLifeConn._async_close`) -/

/-- The `ExtaLifeConn.CloseSource` tags. -/
inductive CloseSource where
  | connect
  | connTask
  | disconnect
  | pingTask
  | readTask
  | request
  deriving DecidableEq

/-- An `ExtaLifeEvent` fired through the connection's event callback. -/
inductive ConnEvent where
  | connectedEv
  | disconnectedEv (shouldReconnect : Bool)
  | notificationEv (frame : ExtaLifeResponse)

/-- The connection-lifecycle portion of `ExtaLifeConn`'s state: whether the
socket, the ping task and the read task are alive (`is not None`). -/
structure ConnState where
  socket : Bool
  pingTask : Bool
  readTask : Bool

/-- `ExtaLifeConn._async_close`: an early return when the socket is already
`None` (no event, no exception); otherwise both background tasks are shut
down, socket and writer are closed and cleared, and a single DISCONNECTED
event fires with `should_reconnect = False` exactly when the close was
caller-initiated (`close_source == DISCONNECT`). -/
def asyncClose (closeSource : CloseSource) (s : ConnState) :
    ConnState × List ConnEvent :=
  if s.socket = false then (s, [])
  else ({ socket := false, pingTask := false, readTask := false },
        [ConnEvent.disconnectedEv (if closeSource = .disconnect then false else true)])

/-- `ExtaLifeConn.async_disconnect`: `_async_close(CloseSource.DISCONNECT)`. -/
def asyncDisconnect (s : ConnState) : ConnState × List ConnEvent :=
  asyncClose .disconnect s

/-! ## Framing codec (`ExtaLifeRequest` and frame decode) -/

/-- Hex digit for the `\u00XX` escapes of `json.dumps`. -/
def hexDigit (n : Nat) : Char :=
  if n < 10 then Char.ofNat (48 + n) else Char.ofNat (87 + n)

/-- Escape one character as Python's `json.dumps` does: named escapes for
quote, backslash and common control characters, `\u00XX` for the remaining
control characters, everything else verbatim. -/
def jsonEscapeChar (c : Char) : List Char :=
  if c = '"' then ['\\', '"']
  else if c = '\\' then ['\\', '\\']
  else if c = '\n' then ['\\', 'n']
  else if c = '\t' then ['\\', 't']
  else if c = '\r' then ['\\', 'r']
  else if c = Char.ofNat 8 then ['\\', 'b']
  else if c = Char.ofNat 12 then ['\\', 'f']
  else if c.toNat < 32 then
    ['\\', 'u', '0', '0', hexDigit (c.toNat / 16), hexDigit (c.toNat % 16)]
  else [c]

/-- Escape a whole string for JSON output. -/
def jsonEscape (s : String) : String :=
  String.mk (s.data.flatMap jsonEscapeChar)

mutual

/-- `json.dumps` with its default separators (`", "` and `": "`), as invoked
by `ExtaLifeRequest.to_json`. -/
def jsonDumps : PyVal → String
  | .pynone => "null"
  | .pybool true => "true"
  | .pybool false => "false"
  | .pyint n => toString n
  | .pystr s => "\"" ++ jsonEscape s ++ "\""
  | .pylist xs => "[" ++ jsonDumpsList xs ++ "]"
  | .pydict d => "\x7b" ++ jsonDumpsDict d ++ "\x7d"

/-- Comma-separated rendering of a JSON array body. -/
def jsonDumpsList : List PyVal → String
  | [] => ""
  | [x] => jsonDumps x
  | x :: y :: xs => jsonDumps x ++ ", " ++ jsonDumpsList (y :: xs)

/-- Comma-separated rendering of a JSON object body. -/
def jsonDumpsDict : List (String × PyVal) → String
  | [] => ""
  | [(k, v)] => "\"" ++ jsonEscape k ++ "\": " ++ jsonDumps v
  | (k, v) :: p :: d =>
    "\"" ++ jsonEscape k ++ "\": " ++ jsonDumps v ++ ", " ++ jsonDumpsDict (p :: d)

end

/-- An `ExtaLifeRequest`: a command plus its stored `_data` payload. -/
structure ExtaLifeRequest where
  command : ExtaLifeCmd
  data : PyVal

/-- The `ExtaLifeRequest` constructor: `data if data else \x7b\x7d` — a
falsy (or absent) payload is replaced by the empty dict. -/
def mkRequest (command : ExtaLifeCmd) (data : Option PyVal) : ExtaLifeRequest :=
  { command := command
    data := match data with
      | some d => if pyTruthy d then d else .pydict []
      | Option.none => .pydict [] }

/-- The JSON object `\x7b"command": ..., "data": ...\x7d` serialized by
`ExtaLifeRequest.to_json` (the `IntEnum` command serializes as its number). -/
def requestToJsonVal (r : ExtaLifeRequest) : PyVal :=
  .pydict [("command", .pyint r.command.toInt), ("data", r.data)]

/-- `ExtaLifeRequest.to_json`. -/
def requestToJsonStr (r : ExtaLifeRequest) : String :=
  jsonDumps (requestToJsonVal r)

/-- `ExtaLifeRequest.to_string`: the JSON text, except that the NOOP
keepalive serializes as a single space. -/
def requestToString (r : ExtaLifeRequest) : String :=
  if r.command = .NOOP then " " else requestToJsonStr r

/-- `ExtaLifeRequest.to_bytes`: the string plus a single trailing ETX
(0x03). All characters produced here are ASCII, so the UTF-8 byte layer is
modelled by the character sequence itself. -/
def requestToBytes (r : ExtaLifeRequest) : List Char :=
  (requestToString r).data ++ [Char.ofNat 3]

/-- The read loop's frame extraction `readuntil(b'\x03')` followed by
`[:-1]`: split the stream at the first ETX, returning the frame text and
the remaining stream (`Option.none` when no ETX has arrived yet). -/
def readFrameString : List Char → Option (String × List Char)
  | [] => Option.none
  | c :: rest =>
    if c = Char.ofNat 3 then some ("", rest)
    else (readFrameString rest).map (fun p => (String.mk (c :: p.1.data), p.2))

/-- The string branch of `ExtaLifeResponse.__init__`, modelled on the parsed
JSON value (`fix_keys` is the identity in the source): read `"command"`
through the command catalog and `"status"` through the status catalog
(unknown or missing values raise `ValueError`); for DOWNLOAD_BACKUP the
whole object minus `command`/`status` becomes the single fragment,
otherwise the single fragment is the `"data"` entry (`None` when absent). -/
def decodeResponseVal (j : PyVal) : Except PyErr ExtaLifeResponse :=
  match j with
  | .pydict d =>
    match (dictGet? d "command").getD .pynone with
    | .pyint n =>
      match ExtaLifeCmd.ofInt? n with
      | some command =>
        match (dictGet? d "status").getD .pynone with
        | .pystr s =>
          match ExtaLifeResponseStatus.ofStr? s with
          | some status =>
            if command = .DOWNLOAD_BACKUP then
              .ok { command := command, status := status,
                    data := [.pydict (dictPop (dictPop d "command") "status")] }
            else
              .ok { command := command, status := status,
                    data := [(dictGet? d "data").getD .pynone] }
          | Option.none => throw .valueError
        | _ => throw .valueError
      | Option.none => throw .valueError
    | _ => throw .valueError
  | _ => throw .attributeError

/-- A request put "in response shape": its serialized JSON object with a
`"status"` field added, as the round-trip property of the spec prescribes. -/
def requestAsResponseShape (r : ExtaLifeRequest) (status : ExtaLifeResponseStatus) :
    PyVal :=
  .pydict [("command", .pyint r.command.toInt), ("data", r.data),
           ("status", .pystr status.toStr)]

/-! ## Status classes and wait-loop invariant -/

/-- Accumulation statuses: they extend a correlated exchange. -/
def isAccum (s : ExtaLifeResponseStatus) : Prop :=
  s = .SEARCHING ∨ s = .PARTIAL ∨ s = .PROGRESS

/-- Terminal statuses: they end a correlated exchange. -/
def isTerminal (s : ExtaLifeResponseStatus) : Prop :=
  s = .SUCCESS ∨ s = .FAILURE

/-- Statuses that refresh the `last_response` activity clock in
`on_response`: NOTIFICATION and the accumulation statuses. -/
def isActivity (s : ExtaLifeResponseStatus) : Prop :=
  s = .NOTIFICATION ∨ isAccum s

instance (s : ExtaLifeResponseStatus) : Decidable (isAccum s) := by
  unfold isAccum; infer_instance

instance (s : ExtaLifeResponseStatus) : Decidable (isTerminal s) := by
  unfold isTerminal; infer_instance

instance (s : ExtaLifeResponseStatus) : Decidable (isActivity s) := by
  unfold isActivity isAccum; infer_instance

/-- A scripted correlated exchange for one command: some accumulation frames
followed by one terminal frame, all carrying the command. -/
def cmdExchangeScript (reqCmd : ExtaLifeCmd)
    (events : List (ℚ × ExtaLifeResponse)) : Prop :=
  ∃ accs lastE, events = accs ++ [lastE] ∧
    (∀ e ∈ accs, e.2.command = reqCmd ∧ isAccum e.2.status) ∧
    lastE.2.command = reqCmd ∧ isTerminal lastE.2.status

/-- The loop invariant of the sliding-timeout wait: the future is pending,
the remaining scripted frames form an exchange for the command, consecutive
arrival times (measured from the current activity clock) are strictly
increasing with gaps of at most `T`, the activity clock is not in the
future of the armed timer, and every remaining frame arrives at or after
the arming instant. -/
def SlideInv (reqCmd : ExtaLifeCmd) (T : ℚ) (st : AwaitState) (armTime : ℚ)
    (events : List (ℚ × ExtaLifeResponse)) : Prop :=
  st.resolved = false ∧
  cmdExchangeScript reqCmd events ∧
  List.Chain' (fun a b => a < b ∧ b ≤ a + T) (st.lastResponse :: events.map Prod.fst) ∧
  st.lastResponse ≤ armTime ∧
  ∀ e ∈ events, armTime ≤ e.1

/-! ## Basic dictionary lemmas -/

theorem dictGet?_nil (k : String) : dictGet? [] k = Option.none := rfl

theorem dictGet?_cons (k'' : String) (v'' : PyVal) (b : PyDict) (k : String) :
    dictGet? ((k'', v'') :: b) k = if k'' = k then some v'' else dictGet? b k := by
  by_cases h : k'' = k <;> simp [dictGet?, h]

theorem dictGet?_map_override (b : PyDict) (k : String) :
    ∀ a : PyDict,
      dictGet? (a.map (fun p => (p.1, (dictGet? b p.1).getD p.2))) k
        = (dictGet? a k).map (fun v => (dictGet? b k).getD v)
  | [] => rfl
  | (k', v') :: a => by
    rw [List.map_cons, dictGet?_cons, dictGet?_cons]
    by_cases h : k' = k
    · subst h
      simp
    · simp only [if_neg h]
      exact dictGet?_map_override b k a

theorem dictGet?_filter_notin (a : PyDict) (k : String) :
    ∀ b : PyDict,
      dictGet? (b.filter (fun p => (dictGet? a p.1).isNone)) k
        = if (dictGet? a k).isNone then dictGet? b k else Option.none
  | [] => by
    cases ha : (dictGet? a k).isNone <;> simp [dictGet?_nil, ha]
  | (k'', v'') :: b => by
    rw [List.filter_cons]
    cases ha : (dictGet? a k'').isNone
    · rw [if_neg (by simp [ha]), dictGet?_filter_notin a k b]
      by_cases h : k'' = k
      · subst h
        simp [ha]
      · rw [dictGet?_cons, if_neg h]
    · rw [if_pos (by simp [ha])]
      by_cases h : k'' = k
      · subst h
        rw [dictGet?_cons, if_pos rfl, dictGet?_cons, if_pos rfl, if_pos (by simp [ha])]
      · rw [dictGet?_cons, if_neg h, dictGet?_cons, if_neg h,
            dictGet?_filter_notin a k b]

theorem dictGet?_append (xs ys : PyDict) (k : String) :
    dictGet? (xs ++ ys) k = match dictGet? xs k with
      | some v => some v
      | Option.none => dictGet? ys k := by
  induction xs with
  | nil => simp [dictGet?_nil]
  | cons p xs ih =>
    rw [List.cons_append, dictGet?_cons, dictGet?_cons]
    by_cases h : p.1 = k
    · simp [h]
    · simp only [if_neg h]
      exact ih

/-- Lookup in the Python merge `\x7b**a, **b\x7d`: the second dict's binding
wins whenever present, otherwise the first dict's binding is used. -/
theorem dictGet?_dictMerge (a b : PyDict) (k : String) :
    dictGet? (dictMerge a b) k = match dictGet? b k with
      | some v => some v
      | Option.none => dictGet? a k := by
  unfold dictMerge
  rw [dictGet?_append, dictGet?_map_override, dictGet?_filter_notin]
  cases ha : dictGet? a k <;> cases hb : dictGet? b k <;> simp [ha, hb]

/-- Successful `mapM` over `Except`: lengths agree and the function succeeds
pointwise. -/
theorem mapM_ok_nth {α β : Type} (f : α → Except PyErr β) :
    ∀ (xs : List α) (ys : List β), xs.mapM f = .ok ys →
      ys.length = xs.length ∧
      ∀ i x, xs.get? i = some x → ∃ y, ys.get? i = some y ∧ f x = .ok y := by
  intro xs
  induction xs with
  | nil =>
    intro ys h
    rw [List.mapM_nil] at h
    simp only [pure, Except.pure, Except.ok.injEq] at h
    subst h
    exact ⟨rfl, by intro i x hx; simp at hx⟩
  | cons x xs ih =>
    intro ys h
    rw [List.mapM_cons] at h
    cases hfx : f x with
    | error e =>
      rw [hfx] at h
      simp only [bind, Except.bind] at h
      exact Except.noConfusion h
    | ok y =>
      rw [hfx] at h
      simp only [bind, Except.bind] at h
      cases hxs : xs.mapM f with
      | error e =>
        rw [hxs] at h
        exact Except.noConfusion h
      | ok ys' =>
        rw [hxs] at h
        simp only [pure, Except.pure, Except.ok.injEq] at h
        subst h
        obtain ⟨hlen, hnth⟩ := ih ys' hxs
        refine ⟨by simp [hlen], ?_⟩
        intro i a ha
        cases i with
        | zero =>
          simp only [List.get?_cons_zero, Option.some.injEq] at ha
          subst ha
          exact ⟨y, by simp, hfx⟩
        | succ j =>
          simp only [List.get?_cons_succ] at ha ⊢
          exact hnth j a ha


/-! ## C1 — Transformer merge direction -/

/-- C1 (counterexample): the claim says the channel data is the shallow
merge of the per-state fields OVER the per-device fields, state fields
winning on key collision. On a device whose record and state entry both
carry `"alias"`, the Transformer (`\x7b**state, **dev\x7d`) keeps the
DEVICE value `"dev"`, not the state value `"st"`. -/
theorem c1_counterexample :
    transformChannels
      [.pydict [("devices", .pylist [.pydict
        [("id", .pyint 1), ("alias", .pystr "dev"),
         ("state", .pylist [.pydict [("channel", .pyint 1), ("alias", .pystr "st")]])]])]]
      false
    = .ok [{ id := "1-1",
             data := [("channel", .pyint 1), ("alias", .pystr "dev"), ("id", .pyint 1)] }]
    ∧ dictGet? [("channel", .pyint 1), ("alias", .pystr "dev"), ("id", .pyint 1)] "alias"
        = some (.pystr "dev")
    ∧ ¬ dictGet? [("channel", .pyint 1), ("alias", .pystr "dev"), ("id", .pyint 1)] "alias"
        = some (.pystr "st") := by
  refine ⟨rfl, rfl, ?_⟩
  intro h
  rw [show dictGet? [("channel", .pyint 1), ("alias", .pystr "dev"), ("id", .pyint 1)] "alias"
        = some (.pystr "dev") from rfl] at h
  injection h with h1
  injection h1 with h2
  exact absurd h2 (by decide)

/-- C1 (amended): for every device record and every entry of its nested
state list, the channel record produced by the Transformer has as its data
the shallow merge of the per-DEVICE fields over the per-state fields — the
DEVICE fields win whenever a key occurs in both the state entry and the
(prepared) device record, and the state entry's value is used otherwise. -/
theorem c1_merge_device_fields_win
    (defChannel : PyVal) (device dev : PyDict) (states : List PyVal)
    (devId : PyVal) (chs : List Channel)
    (hprep : transformDevicePrep device = .ok dev)
    (hstates : dictGet? device "state" = some (.pylist states))
    (hid : dictGet? device "id" = some devId)
    (h : transformDevice defChannel device = .ok chs) :
    chs.length = states.length ∧
    ∀ i st, states.get? i = some (.pydict st) →
      (chs.get? i).map Channel.data = some (dictMerge st dev) ∧
      ∀ k, dictGet? (dictMerge st dev) k
          = match dictGet? dev k with
            | some v => some v
            | Option.none => dictGet? st k := by
  unfold transformDevice at h
  rw [hprep] at h
  simp only [bind, Except.bind, hstates, hid] at h
  obtain ⟨hlen, hnth⟩ := mapM_ok_nth _ states chs h
  refine ⟨hlen, ?_⟩
  intro i st hst
  obtain ⟨y, hy, hfy⟩ := hnth i _ hst
  simp only [pure, Except.pure, Except.ok.injEq] at hfy
  refine ⟨?_, fun k => dictGet?_dictMerge st dev k⟩
  rw [hy, ← hfy]
  rfl

/-- C1 (witness): the amended theorem applied to the concrete device of the
counterexample, specialized to the colliding key `"alias"`. -/
theorem c1_merge_device_fields_win_witness :
    (([{ id := "1-1",
         data := [("channel", .pyint 1), ("alias", .pystr "dev"), ("id", .pyint 1)] }]
       : List Channel).length
      = ([.pydict [("channel", .pyint 1), ("alias", .pystr "st")]] : List PyVal).length)
    ∧ dictGet? (dictMerge [("channel", .pyint 1), ("alias", .pystr "st")]
                          [("id", .pyint 1), ("alias", .pystr "dev")]) "alias"
        = match dictGet? [("id", .pyint 1), ("alias", .pystr "dev")] "alias" with
          | some v => some v
          | Option.none =>
            dictGet? [("channel", .pyint 1), ("alias", .pystr "st")] "alias" := by
  have h := c1_merge_device_fields_win .pynone
    [("id", .pyint 1), ("alias", .pystr "dev"),
     ("state", .pylist [.pydict [("channel", .pyint 1), ("alias", .pystr "st")]])]
    [("id", .pyint 1), ("alias", .pystr "dev")]
    [.pydict [("channel", .pyint 1), ("alias", .pystr "st")]]
    (.pyint 1)
    [{ id := "1-1",
       data := [("channel", .pyint 1), ("alias", .pystr "dev"), ("id", .pyint 1)] }]
    rfl rfl rfl rfl
  exact ⟨h.1, (h.2 0 _ rfl).2 "alias"⟩

/-! ## C3 — Exta-Free type remap -/

/-- C3: a device pair carrying `exta_free_device=true` (on the device
record, where the code reads it) and `exta_free_type=5` (on the first state
entry, where the code reads it) yields a channel record whose merged `type`
field equals 305 (the fixed offset 300 plus the `exta_free_type` value) and
not 5 — even though the device record's own `type` field was 5. -/
theorem c3_exta_free_type_remap :
    transformChannels
      [.pydict [("devices", .pylist [.pydict
        [("id", .pyint 9), ("type", .pyint 5), ("exta_free_device", .pybool true),
         ("state", .pylist [.pydict [("channel", .pyint 1), ("exta_free_type", .pyint 5)]])]])]]
      false
    = .ok [{ id := "9-1",
             data := [("channel", .pyint 1), ("exta_free_type", .pyint 5),
                      ("id", .pyint 9), ("type", .pyint 305),
                      ("exta_free_device", .pybool true)] }]
    ∧ dictGet? [("channel", .pyint 1), ("exta_free_type", .pyint 5), ("id", .pyint 9),
                ("type", .pyint 305), ("exta_free_device", .pybool true)] "type"
        = some (.pyint 305)
    ∧ ¬ dictGet? [("channel", .pyint 1), ("exta_free_type", .pyint 5), ("id", .pyint 9),
                  ("type", .pyint 305), ("exta_free_device", .pybool true)] "type"
        = some (.pyint 5) := by
  refine ⟨rfl, rfl, ?_⟩
  intro h
  rw [show dictGet? [("channel", .pyint 1), ("exta_free_type", .pyint 5), ("id", .pyint 9),
        ("type", .pyint 305), ("exta_free_device", .pybool true)] "type"
        = some (.pyint 305) from rfl] at h
  injection h with h1
  injection h1 with h2
  exact absurd h2 (by decide)

/-! ## Correlator lemmas -/

theorem onResponse_of_resolved (reqCmd : ExtaLifeCmd) (now : ℚ) (st : AwaitState)
    (f : ExtaLifeResponse) (h : st.resolved = true) :
    onResponse reqCmd now st f = st := by
  simp [onResponse, h]

theorem onResponse_of_other_cmd (reqCmd : ExtaLifeCmd) (now : ℚ) (st : AwaitState)
    (f : ExtaLifeResponse) (h : f.command ≠ reqCmd) :
    onResponse reqCmd now st f = st := by
  simp [onResponse, h]

theorem onResponse_notification (reqCmd : ExtaLifeCmd) (now : ℚ) (st : AwaitState)
    (f : ExtaLifeResponse) (h : st.resolved = false) (hc : f.command = reqCmd)
    (hs : f.status = .NOTIFICATION) :
    onResponse reqCmd now st f = { st with lastResponse := now } := by
  simp [onResponse, h, hc, hs]

theorem onResponse_accum (reqCmd : ExtaLifeCmd) (now : ℚ) (st : AwaitState)
    (f : ExtaLifeResponse) (h : st.resolved = false) (hc : f.command = reqCmd)
    (hs : isAccum f.status) :
    onResponse reqCmd now st f
      = { st with lastResponse := now, responses := st.responses ++ [f] } := by
  rcases hs with h1 | h1 | h1 <;> simp [onResponse, h, hc, h1]

theorem onResponse_terminal (reqCmd : ExtaLifeCmd) (now : ℚ) (st : AwaitState)
    (f : ExtaLifeResponse) (h : st.resolved = false) (hc : f.command = reqCmd)
    (hs : isTerminal f.status) :
    onResponse reqCmd now st f
      = { st with responses := st.responses ++ [f], resolved := true,
                  resolveCount := st.resolveCount + 1 } := by
  rcases hs with h1 | h1 <;> simp [onResponse, h, hc, h1]

/-- Once the waiter future is resolved, every further frame is ignored. -/
theorem runFrames_of_resolved (reqCmd : ExtaLifeCmd) (st : AwaitState)
    (events : List (ℚ × ExtaLifeResponse)) (h : st.resolved = true) :
    runFrames reqCmd st events = st := by
  induction events with
  | nil => rfl
  | cons e rest ih =>
    show runFrames reqCmd (onResponse reqCmd e.1 st e.2) rest = st
    rw [onResponse_of_resolved reqCmd e.1 st e.2 h]
    exact ih

/-- Dispatching a run of accumulation frames for the awaited command onto an
unresolved state appends exactly those frames, keeps the state unresolved,
leaves the resolve counter alone and moves the activity clock to the last
arrival time. -/
theorem runFrames_accum (reqCmd : ExtaLifeCmd) :
    ∀ (events : List (ℚ × ExtaLifeResponse)) (st : AwaitState),
      st.resolved = false →
      (∀ e ∈ events, e.2.command = reqCmd ∧ isAccum e.2.status) →
      runFrames reqCmd st events
        = { st with responses := st.responses ++ events.map Prod.snd,
                    lastResponse := (events.map Prod.fst).getLastD st.lastResponse }
  | [], st, h, _ => by simp [runFrames]
  | e :: rest, st, h, hall => by
    have he := hall e (by simp)
    show runFrames reqCmd (onResponse reqCmd e.1 st e.2) rest = _
    rw [onResponse_accum reqCmd e.1 st e.2 h he.1 he.2]
    rw [runFrames_accum reqCmd rest _ (by simp [h]) (fun x hx => hall x (by simp [hx]))]
    rw [List.map_cons, List.map_cons, List.getLastD_cons]
    simp

theorem runFrames_nil (reqCmd : ExtaLifeCmd) (st : AwaitState) :
    runFrames reqCmd st [] = st := rfl

theorem runFrames_cons (reqCmd : ExtaLifeCmd) (st : AwaitState)
    (e : ℚ × ExtaLifeResponse) (ys : List (ℚ × ExtaLifeResponse)) :
    runFrames reqCmd st (e :: ys)
      = runFrames reqCmd (onResponse reqCmd e.1 st e.2) ys := rfl

theorem runFrames_append (reqCmd : ExtaLifeCmd) (st : AwaitState)
    (xs ys : List (ℚ × ExtaLifeResponse)) :
    runFrames reqCmd st (xs ++ ys)
      = runFrames reqCmd (runFrames reqCmd st xs) ys := by
  simp [runFrames, List.foldl_append]

/-! ## C4 — fragment accumulation -/

/-- C4: for a pending `send_and_await` exchange, an arriving sequence of
accumulation frames (SEARCHING/PARTIAL/PROGRESS) for its command followed by
one terminal frame (SUCCESS or FAILURE) resolves the wait exactly once
(`set_result` fires once, and every later frame is ignored), and the
resolved fragment list contains exactly those frames in arrival order. -/
theorem c4_fragment_accumulation (reqCmd : ExtaLifeCmd)
    (accEvents : List (ℚ × ExtaLifeResponse)) (tN : ℚ) (term : ExtaLifeResponse)
    (rest : List (ℚ × ExtaLifeResponse)) (t0 : ℚ)
    (hacc : ∀ e ∈ accEvents, e.2.command = reqCmd ∧ isAccum e.2.status)
    (hcmd : term.command = reqCmd) (hterm : isTerminal term.status) :
    (runFrames reqCmd (initAwaitState t0) (accEvents ++ (tN, term) :: rest)).resolved
        = true ∧
    (runFrames reqCmd (initAwaitState t0) (accEvents ++ (tN, term) :: rest)).resolveCount
        = 1 ∧
    (runFrames reqCmd (initAwaitState t0) (accEvents ++ (tN, term) :: rest)).responses
        = accEvents.map Prod.snd ++ [term] := by
  rw [runFrames_append, runFrames_accum reqCmd accEvents _ rfl hacc, runFrames_cons,
      onResponse_terminal _ _ _ _ rfl hcmd hterm,
      runFrames_of_resolved _ _ _ rfl]
  exact ⟨rfl, rfl, rfl⟩

/-- C4 (witness): the scripted [SEARCHING, PARTIAL, SUCCESS] sequence yields
a resolved state with a single `set_result` and the three frames in order. -/
theorem c4_fragment_accumulation_witness :
    (runFrames .FETCH_RECEIVERS (initAwaitState 0)
      ([(1, { command := .FETCH_RECEIVERS, status := .SEARCHING, data := [.pynone] }),
        (2, { command := .FETCH_RECEIVERS, status := .PARTIAL, data := [.pynone] })]
        ++ (3, { command := .FETCH_RECEIVERS, status := .SUCCESS, data := [.pynone] })
           :: [])).resolved = true ∧
    (runFrames .FETCH_RECEIVERS (initAwaitState 0)
      ([(1, { command := .FETCH_RECEIVERS, status := .SEARCHING, data := [.pynone] }),
        (2, { command := .FETCH_RECEIVERS, status := .PARTIAL, data := [.pynone] })]
        ++ (3, { command := .FETCH_RECEIVERS, status := .SUCCESS, data := [.pynone] })
           :: [])).resolveCount = 1 ∧
    (runFrames .FETCH_RECEIVERS (initAwaitState 0)
      ([(1, { command := .FETCH_RECEIVERS, status := .SEARCHING, data := [.pynone] }),
        (2, { command := .FETCH_RECEIVERS, status := .PARTIAL, data := [.pynone] })]
        ++ (3, { command := .FETCH_RECEIVERS, status := .SUCCESS, data := [.pynone] })
           :: [])).responses
      = [(1, { command := .FETCH_RECEIVERS, status := .SEARCHING, data := [.pynone] }),
         (2, { command := .FETCH_RECEIVERS, status := .PARTIAL,
               data := [.pynone] })].map Prod.snd
        ++ [{ command := .FETCH_RECEIVERS, status := .SUCCESS, data := [.pynone] }] :=
  c4_fragment_accumulation .FETCH_RECEIVERS
    [(1, { command := .FETCH_RECEIVERS, status := .SEARCHING, data := [.pynone] }),
     (2, { command := .FETCH_RECEIVERS, status := .PARTIAL, data := [.pynone] })]
    3 { command := .FETCH_RECEIVERS, status := .SUCCESS, data := [.pynone] } [] 0
    (by decide) rfl (by decide)

/-! ## C5 — notification isolation -/

/-- C5: a NOTIFICATION-status frame for the awaited command X never resolves
the pending wait and is never appended to its fragment accumulator — yet it
IS routed to the notification subscriber by the read loop — and only a
SUCCESS or FAILURE frame for X can resolve the pending wait. -/
theorem c5_notification_isolation (reqCmd : ExtaLifeCmd) (now : ℚ) (st : AwaitState)
    (f : ExtaLifeResponse) (hpend : st.resolved = false)
    (hcmd : f.command = reqCmd) (hnotif : f.status = .NOTIFICATION) :
    (readDispatch reqCmd now st f).1.responses = st.responses ∧
    (readDispatch reqCmd now st f).1.resolved = false ∧
    (readDispatch reqCmd now st f).1.resolveCount = st.resolveCount ∧
    (readDispatch reqCmd now st f).2 = [f] ∧
    (∀ (t : ℚ) (g : ExtaLifeResponse), (onResponse reqCmd t st g).resolved = true →
      g.command = reqCmd ∧ isTerminal g.status) := by
  refine ⟨?_, ?_, ?_, ?_, ?_⟩
  · simp [readDispatch, onResponse_notification reqCmd now st f hpend hcmd hnotif]
  · simp [readDispatch, onResponse_notification reqCmd now st f hpend hcmd hnotif, hpend]
  · simp [readDispatch, onResponse_notification reqCmd now st f hpend hcmd hnotif]
  · simp [readDispatch, hnotif]
  · intro t g hres
    by_cases hg : g.command = reqCmd
    · refine ⟨hg, ?_⟩
      cases hs : g.status <;> simp [onResponse, hpend, hg, hs, isTerminal] at hres ⊢
    · rw [onResponse_of_other_cmd _ _ _ _ hg, hpend] at hres
      exact absurd hres (by decide)

/-- C5 (witness): a concrete NOTIFICATION frame for CONTROL_DEVICE against a
fresh pending CONTROL_DEVICE exchange. -/
theorem c5_notification_isolation_witness :
    (readDispatch .CONTROL_DEVICE 1 (initAwaitState 0)
        { command := .CONTROL_DEVICE, status := .NOTIFICATION,
          data := [.pynone] }).1.responses = (initAwaitState 0).responses ∧
    (readDispatch .CONTROL_DEVICE 1 (initAwaitState 0)
        { command := .CONTROL_DEVICE, status := .NOTIFICATION,
          data := [.pynone] }).1.resolved = false ∧
    (readDispatch .CONTROL_DEVICE 1 (initAwaitState 0)
        { command := .CONTROL_DEVICE, status := .NOTIFICATION,
          data := [.pynone] }).1.resolveCount = (initAwaitState 0).resolveCount ∧
    (readDispatch .CONTROL_DEVICE 1 (initAwaitState 0)
        { command := .CONTROL_DEVICE, status := .NOTIFICATION, data := [.pynone] }).2
      = [{ command := .CONTROL_DEVICE, status := .NOTIFICATION, data := [.pynone] }] ∧
    (∀ (t : ℚ) (g : ExtaLifeResponse),
      (onResponse .CONTROL_DEVICE t (initAwaitState 0) g).resolved = true →
      g.command = .CONTROL_DEVICE ∧ isTerminal g.status) :=
  c5_notification_isolation .CONTROL_DEVICE 1 (initAwaitState 0)
    { command := .CONTROL_DEVICE, status := .NOTIFICATION, data := [.pynone] }
    rfl rfl rfl

/-! ## Sliding-timeout machinery -/

theorem feedUntil_eq (reqCmd : ExtaLifeCmd) (fire : ℚ) :
    ∀ (st : AwaitState) (events : List (ℚ × ExtaLifeResponse)),
      feedUntil reqCmd fire st events
        = (runFrames reqCmd st (events.takeWhile (fun e => decide (e.1 < fire))),
           events.dropWhile (fun e => decide (e.1 < fire)))
  | st, [] => rfl
  | st, e :: rest => by
    rw [show feedUntil reqCmd fire st (e :: rest)
          = if e.1 < fire then feedUntil reqCmd fire (onResponse reqCmd e.1 st e.2) rest
            else (st, e :: rest) from rfl]
    by_cases h : e.1 < fire
    · rw [if_pos h, List.takeWhile_cons_of_pos (by simpa using h),
          List.dropWhile_cons_of_pos (by simpa using h), runFrames_cons]
      exact feedUntil_eq reqCmd fire (onResponse reqCmd e.1 st e.2) rest
    · rw [if_neg h, List.takeWhile_cons_of_neg (by simpa using h),
          List.dropWhile_cons_of_neg (by simpa using h), runFrames_nil]

theorem dropWhile_head_false {α : Type} (p : α → Bool) :
    ∀ (l : List α) (y : α) (ys : List α), l.dropWhile p = y :: ys → p y = false
  | [], y, ys, h => by simp at h
  | x :: l, y, ys, h => by
    by_cases hx : p x = true
    · rw [List.dropWhile_cons_of_pos hx] at h
      exact dropWhile_head_false p l y ys h
    · rw [List.dropWhile_cons_of_neg hx] at h
      cases h
      simpa using hx

theorem getLast?_cons_eq {α : Type} (a : α) (l : List α) :
    (a :: l).getLast? = some (l.getLastD a) := by
  induction l generalizing a with
  | nil => rfl
  | cons b l ih => rw [List.getLastD_cons]; exact ih b

theorem getLastD_mem_cons' {α : Type} : ∀ (l : List α) (a : α), l.getLastD a ∈ a :: l
  | [], a => by simp
  | b :: l, a => by
    rw [List.getLastD_cons]
    have := getLastD_mem_cons' l b
    simp only [List.mem_cons] at this ⊢
    tauto

theorem take_append_le {α : Type} :
    ∀ (l₁ l₂ : List α) (n : Nat), n ≤ l₁.length → (l₁ ++ l₂).take n = l₁.take n
  | _, _, 0, _ => by simp
  | [], _, n + 1, h => by simp at h
  | a :: l₁, l₂, n + 1, h => by
    simp only [List.cons_append, List.take_succ_cons]
    rw [take_append_le l₁ l₂ n (by simpa using h)]

theorem drop_append_le {α : Type} :
    ∀ (l₁ l₂ : List α) (n : Nat), n ≤ l₁.length → (l₁ ++ l₂).drop n = l₁.drop n ++ l₂
  | _, _, 0, _ => by simp
  | [], _, n + 1, h => by simp at h
  | a :: l₁, l₂, n + 1, h => by
    simp only [List.cons_append, List.drop_succ_cons]
    exact drop_append_le l₁ l₂ n (by simpa using h)

theorem runAwait_succ_eq (reqCmd : ExtaLifeCmd) (T : ℚ) (fuel : Nat) (st : AwaitState)
    (armTime : ℚ) (events : List (ℚ × ExtaLifeResponse)) :
    runAwait reqCmd T (fuel + 1) st armTime events
      = (if (runFrames reqCmd st
              (events.takeWhile (fun e => decide (e.1 < armTime + T)))).resolved then
           some (.success (runFrames reqCmd st
              (events.takeWhile (fun e => decide (e.1 < armTime + T)))).responses)
         else if (armTime + T - (runFrames reqCmd st
              (events.takeWhile (fun e => decide (e.1 < armTime + T)))).lastResponse)
              - 3/10 > T then
           some (.connTimeout (armTime + T))
         else runAwait reqCmd T fuel
           (runFrames reqCmd st (events.takeWhile (fun e => decide (e.1 < armTime + T))))
           (armTime + T)
           (events.dropWhile (fun e => decide (e.1 < armTime + T)))) := by
  show (if (feedUntil reqCmd (armTime + T) st events).1.resolved then
          some (RunResult.success (feedUntil reqCmd (armTime + T) st events).1.responses)
        else if (armTime + T - (feedUntil reqCmd (armTime + T) st events).1.lastResponse)
            - 3/10 > T then
          some (.connTimeout (armTime + T))
        else runAwait reqCmd T fuel (feedUntil reqCmd (armTime + T) st events).1
          (armTime + T) (feedUntil reqCmd (armTime + T) st events).2) = _
  rw [feedUntil_eq]

/-- One timer cycle of the wait loop under the sliding invariant: either the
terminal frame is consumed and the wait returns the fragment list, or the
cycle re-arms with the invariant re-established — consuming at least one
frame unless the next frame arrives exactly at the timer deadline (in which
case the state is unchanged and the activity clock equals the old arming
instant, so the following cycle consumes it). -/
theorem slide_step (reqCmd : ExtaLifeCmd) (T : ℚ) (hT : 0 < T)
    (st : AwaitState) (armTime : ℚ) (events : List (ℚ × ExtaLifeResponse))
    (inv : SlideInv reqCmd T st armTime events) :
    (∃ rs, ∀ fuel, runAwait reqCmd T (fuel + 1) st armTime events
        = some (.success rs)) ∨
    (∃ st' events',
      (∀ fuel, runAwait reqCmd T (fuel + 1) st armTime events
          = runAwait reqCmd T fuel st' (armTime + T) events') ∧
      SlideInv reqCmd T st' (armTime + T) events' ∧
      (events'.length < events.length ∨
        (events' = events ∧ st' = st ∧ st.lastResponse = armTime))) := by
  obtain ⟨hres, ⟨accs, lastE, hsplit, haccs, hcl, hct⟩, hchain, hlb, harm⟩ := inv
  by_cases hempty : events.dropWhile (fun e => decide (e.1 < armTime + T)) = []
  · -- the whole remaining exchange arrives before the timer fires
    left
    have hchunk : events.takeWhile (fun e => decide (e.1 < armTime + T)) = events := by
      have := List.takeWhile_append_dropWhile
        (p := fun e : ℚ × ExtaLifeResponse => decide (e.1 < armTime + T)) (l := events)
      rw [hempty, List.append_nil] at this
      exact this
    have hrun : (runFrames reqCmd st events).resolved = true ∧
        (runFrames reqCmd st events).responses
          = st.responses ++ accs.map Prod.snd ++ [lastE.2] := by
      rw [hsplit, runFrames_append, runFrames_accum reqCmd accs st hres haccs,
          runFrames_cons, onResponse_terminal _ _ _ _ (by exact hres) hcl hct,
          runFrames_nil]
      exact ⟨rfl, rfl⟩
    refine ⟨st.responses ++ accs.map Prod.snd ++ [lastE.2], fun fuel => ?_⟩
    rw [runAwait_succ_eq, hchunk, if_pos hrun.1, hrun.2]
  · -- the timer fires first: re-arm
    right
    obtain ⟨h0, tl, hrest⟩ : ∃ h0 tl,
        events.dropWhile (fun e => decide (e.1 < armTime + T)) = h0 :: tl := by
      cases hx : events.dropWhile (fun e => decide (e.1 < armTime + T)) with
      | nil => exact absurd hx hempty
      | cons a l => exact ⟨a, l, rfl⟩
    set chunk := events.takeWhile (fun e => decide (e.1 < armTime + T)) with hchunkdef
    set restl := events.dropWhile (fun e => decide (e.1 < armTime + T)) with hrestldef
    have hcr : chunk ++ restl = events := by
      rw [hchunkdef, hrestldef]
      exact List.takeWhile_append_dropWhile _ _
    have hchunklt : ∀ e ∈ chunk, e.1 < armTime + T := by
      intro e he
      have := List.mem_takeWhile_imp he
      simpa using this
    have hlen1 : chunk.length + restl.length = events.length := by
      rw [← hcr]; simp
    have hevlen : events.length = accs.length + 1 := by rw [hsplit]; simp
    have hr1 : 1 ≤ restl.length := by rw [hrest]; simp
    have hlen2 : chunk.length ≤ accs.length := by omega
    have htake_self : events.take chunk.length = chunk := by
      rw [← hcr, take_append_le _ _ _ (le_refl _), List.take_length]
    have hdrop_self : events.drop chunk.length = restl := by
      rw [← hcr, drop_append_le _ _ _ (le_refl _), List.drop_length, List.nil_append]
    have hchunk_take : chunk = accs.take chunk.length := by
      conv_lhs => rw [← htake_self]
      rw [hsplit, take_append_le accs [lastE] chunk.length hlen2]
    have hrestl_drop : restl = accs.drop chunk.length ++ [lastE] := by
      conv_lhs => rw [← hdrop_self]
      rw [hsplit, drop_append_le accs [lastE] chunk.length hlen2]
    have hchunkaccs : ∀ e ∈ chunk, e.2.command = reqCmd ∧ isAccum e.2.status := by
      intro e he
      exact haccs e (List.take_subset _ _ (hchunk_take ▸ he))
    have hstA := runFrames_accum reqCmd chunk st hres hchunkaccs
    have hstAres : (runFrames reqCmd st chunk).resolved = false := by
      rw [hstA]; exact hres
    have hstAlast : (runFrames reqCmd st chunk).lastResponse
        = (chunk.map Prod.fst).getLastD st.lastResponse := by
      rw [hstA]
    have hchain2 : List.Chain' (fun a b : ℚ => a < b ∧ b ≤ a + T)
        ((st.lastResponse :: chunk.map Prod.fst) ++ restl.map Prod.fst) := by
      rw [List.cons_append, ← List.map_append, hcr]
      exact hchain
    obtain ⟨hc1, hc2, hlink⟩ := List.chain'_append.mp hchain2
    have hR : (chunk.map Prod.fst).getLastD st.lastResponse < h0.1 ∧
        h0.1 ≤ (chunk.map Prod.fst).getLastD st.lastResponse + T := by
      apply hlink
      · simp [getLast?_cons_eq]
      · rw [hrest]; simp
    have hfire_le : armTime + T ≤ h0.1 := by
      have hd := dropWhile_head_false
        (fun e : ℚ × ExtaLifeResponse => decide (e.1 < armTime + T)) events h0 tl
        (hrestldef.symm.trans hrest)
      have : ¬ (h0.1 < armTime + T) := by simpa using hd
      exact le_of_not_lt this
    have hnotimeout : ¬ ((armTime + T - (chunk.map Prod.fst).getLastD st.lastResponse)
        - 3/10 > T) := by
      have h1 : armTime + T ≤ (chunk.map Prod.fst).getLastD st.lastResponse + T :=
        le_trans hfire_le hR.2
      push_neg
      linarith
    have hlastT_le : (chunk.map Prod.fst).getLastD st.lastResponse ≤ armTime + T := by
      rcases List.mem_cons.mp (getLastD_mem_cons' (chunk.map Prod.fst) st.lastResponse)
        with hmem | hmem
      · rw [hmem]; linarith
      · obtain ⟨e, he, heq⟩ := List.mem_map.mp hmem
        rw [← heq]
        exact le_of_lt (hchunklt e he)
    have htl_chain : List.Chain' (fun a b : ℚ => a < b ∧ b ≤ a + T)
        (h0.1 :: tl.map Prod.fst) := by
      have := hc2
      rw [hrest, List.map_cons] at this
      exact this
    have hrest_lb : ∀ e ∈ restl, armTime + T ≤ e.1 := by
      intro e he
      rw [hrest] at he
      rcases List.mem_cons.mp he with hh | hh
      · rw [hh]; exact hfire_le
      · have hpw : List.Pairwise (· < ·) (h0.1 :: tl.map Prod.fst) :=
          List.chain'_iff_pairwise.mp (htl_chain.imp (fun a b h => h.1))
        have hlt : h0.1 < e.1 :=
          (List.pairwise_cons.mp hpw).1 e.1 (List.mem_map_of_mem Prod.fst hh)
        exact le_of_lt (lt_of_le_of_lt hfire_le hlt)
    refine ⟨runFrames reqCmd st chunk, restl, ?_, ?_, ?_⟩
    · intro fuel
      rw [runAwait_succ_eq, ← hchunkdef, ← hrestldef,
          if_neg (by rw [hstAres]; exact Bool.false_ne_true), hstAlast,
          if_neg hnotimeout]
    · refine ⟨hstAres,
        ⟨accs.drop chunk.length, lastE, hrestl_drop,
         fun e he => haccs e (List.drop_subset _ _ he), hcl, hct⟩, ?_, ?_, hrest_lb⟩
      · rw [hstAlast, hrest, List.map_cons]
        exact List.chain'_cons'.mpr
          ⟨fun y hy => by
            rw [hrest, List.map_cons] at hc2
            simp only [List.head?_cons, Option.mem_def, Option.some.injEq] at hy
            rw [← hy]
            exact hR,
           htl_chain⟩
      · rw [hstAlast]
        exact hlastT_le
    · cases hch : chunk with
      | nil =>
        right
        have hre : restl = events := by rw [← hcr, hch, List.nil_append]
        have hlr : st.lastResponse = armTime := by
          have h1 : armTime + T ≤ st.lastResponse + T := by
            have := hR.2
            rw [hch] at this
            simp only [List.map_nil, List.getLastD_nil] at this
            exact le_trans hfire_le this
          have h2 : armTime ≤ st.lastResponse := by linarith
          exact le_antisymm hlb h2
        exact ⟨hre, rfl, hlr⟩
      | cons c cl =>
        left
        have : 1 ≤ chunk.length := by rw [hch]; simp
        omega

/-- Under the sliding invariant, no amount of fuel ever produces a timeout:
every cycle's deadline check finds recent activity (or the pending next
frame within reach) and re-arms instead. -/
theorem slide_no_timeout (reqCmd : ExtaLifeCmd) (T : ℚ) (hT : 0 < T) :
    ∀ (fuel : Nat) (st : AwaitState) (armTime : ℚ)
      (events : List (ℚ × ExtaLifeResponse)),
      SlideInv reqCmd T st armTime events →
      ∀ c, runAwait reqCmd T fuel st armTime events ≠ some (.connTimeout c)
  | 0, st, armTime, events, inv, c => by
    show Option.none ≠ _
    simp
  | fuel + 1, st, armTime, events, inv, c => by
    rcases slide_step reqCmd T hT st armTime events inv with
      ⟨rs, hrs⟩ | ⟨st', ev', hrec, inv', _⟩
    · rw [hrs fuel]
      simp
    · rw [hrec fuel]
      exact slide_no_timeout reqCmd T hT fuel st' (armTime + T) ev' inv' c

/-- Under the sliding invariant, the wait eventually resolves with the
accumulated fragment list (for sufficient fuel). -/
theorem slide_success (reqCmd : ExtaLifeCmd) (T : ℚ) (hT : 0 < T)
    (events : List (ℚ × ExtaLifeResponse)) (st : AwaitState) (armTime : ℚ)
    (inv : SlideInv reqCmd T st armTime events) :
    ∃ fuel rs, runAwait reqCmd T fuel st armTime events = some (.success rs) := by
  rcases slide_step reqCmd T hT st armTime events inv with
    ⟨rs, hrs⟩ | ⟨st', ev', hrec, inv', hdec⟩
  · exact ⟨1, rs, hrs 0⟩
  · rcases hdec with hlt | ⟨hev, hst, _⟩
    · obtain ⟨fuel, rs, hr⟩ := slide_success reqCmd T hT ev' st' (armTime + T) inv'
      exact ⟨fuel + 1, rs, by rw [hrec fuel]; exact hr⟩
    · rcases slide_step reqCmd T hT st' (armTime + T) ev' inv' with
        ⟨rs, hrs2⟩ | ⟨st'', ev'', hrec2, inv'', hdec2⟩
      · exact ⟨2, rs, by rw [hrec 1, hrs2 0]⟩
      · rcases hdec2 with hlt2 | ⟨_, _, hlr2⟩
        · obtain ⟨fuel, rs, hr⟩ :=
            slide_success reqCmd T hT ev'' st'' (armTime + T + T) inv''
          exact ⟨fuel + 2, rs, by rw [hrec (fuel + 1), hrec2 fuel]; exact hr⟩
        · exfalso
          have h2 : st.lastResponse ≤ armTime := inv.2.2.2.1
          rw [← hst, hlr2] at h2
          linarith
termination_by events.length
decreasing_by
  · exact hlt
  · rw [← hev]; exact hlt2

theorem onResponse_lastResponse_cases (reqCmd : ExtaLifeCmd) (now : ℚ)
    (st : AwaitState) (f : ExtaLifeResponse) :
    (onResponse reqCmd now st f).lastResponse = st.lastResponse ∨
    (onResponse reqCmd now st f).lastResponse = now := by
  unfold onResponse
  split
  · left; rfl
  split
  · right; rfl
  split
  · right; rfl
  split
  · left; rfl
  · left; rfl

theorem onResponse_resolved_false_of (reqCmd : ExtaLifeCmd) (now : ℚ)
    (st : AwaitState) (f : ExtaLifeResponse)
    (h : (onResponse reqCmd now st f).resolved = false) : st.resolved = false := by
  by_cases hst : st.resolved = true
  · rw [onResponse_of_resolved _ _ _ _ hst] at h
    exact h
  · simpa using hst

theorem onResponse_activity_clock (reqCmd : ExtaLifeCmd) (now : ℚ)
    (st : AwaitState) (f : ExtaLifeResponse) (h : st.resolved = false)
    (hc : f.command = reqCmd) (ha : isActivity f.status) :
    (onResponse reqCmd now st f).lastResponse = now := by
  rcases ha with hn | hacc
  · rw [onResponse_notification _ _ _ _ h hc hn]
  · rw [onResponse_accum _ _ _ _ h hc hacc]

theorem runFrames_resolved_false_of (reqCmd : ExtaLifeCmd) :
    ∀ (chunk : List (ℚ × ExtaLifeResponse)) (st : AwaitState),
      (runFrames reqCmd st chunk).resolved = false → st.resolved = false
  | [], _, h => h
  | e :: rest, st, h =>
    onResponse_resolved_false_of _ _ _ _
      (runFrames_resolved_false_of reqCmd rest (onResponse reqCmd e.1 st e.2) h)

/-- Dispatching a sorted batch of frames never moves the activity clock
backwards, moves it only to an arrival time, and — when the state stays
pending — records an activity time at least as late as every activity frame
for the command in the batch. -/
theorem runFrames_activity_bound (reqCmd : ExtaLifeCmd) :
    ∀ (chunk : List (ℚ × ExtaLifeResponse)) (st : AwaitState),
      List.Chain' (· < ·) (chunk.map Prod.fst) →
      (∀ e ∈ chunk, st.lastResponse ≤ e.1) →
      (st.lastResponse ≤ (runFrames reqCmd st chunk).lastResponse) ∧
      ((runFrames reqCmd st chunk).lastResponse = st.lastResponse ∨
        ∃ e ∈ chunk, (runFrames reqCmd st chunk).lastResponse = e.1) ∧
      ((runFrames reqCmd st chunk).resolved = false →
        ∀ e ∈ chunk, e.2.command = reqCmd → isActivity e.2.status →
          e.1 ≤ (runFrames reqCmd st chunk).lastResponse)
  | [], st, _, _ => ⟨le_refl _, Or.inl rfl, by intro _ e he; simp at he⟩
  | (t, f) :: rest, st, hchain, hlb => by
    rw [runFrames_cons]
    have hlb0 : st.lastResponse ≤ t := hlb (t, f) (by simp)
    have hst1 : st.lastResponse ≤ (onResponse reqCmd t st f).lastResponse := by
      rcases onResponse_lastResponse_cases reqCmd t st f with h | h <;> rw [h]
      exact hlb0
    have hpw : List.Pairwise (· < ·) (t :: rest.map Prod.fst) := by
      have := List.chain'_iff_pairwise.mp hchain
      simpa using this
    have hlb1 : ∀ e ∈ rest, (onResponse reqCmd t st f).lastResponse ≤ e.1 := by
      intro e he
      rcases onResponse_lastResponse_cases reqCmd t st f with h | h <;> rw [h]
      · exact hlb e (by simp [he])
      · exact le_of_lt ((List.pairwise_cons.mp hpw).1 e.1 (List.mem_map_of_mem _ he))
    have hchain1 : List.Chain' (· < ·) (rest.map Prod.fst) := by
      have := hchain
      rw [List.map_cons] at this
      exact this.tail
    obtain ⟨ih1, ih2, ih3⟩ :=
      runFrames_activity_bound reqCmd rest (onResponse reqCmd t st f) hchain1 hlb1
    refine ⟨le_trans hst1 ih1, ?_, ?_⟩
    · rcases ih2 with h | ⟨e, he, hee⟩
      · rw [h]
        rcases onResponse_lastResponse_cases reqCmd t st f with h2 | h2
        · exact Or.inl h2
        · exact Or.inr ⟨(t, f), by simp, h2⟩
      · exact Or.inr ⟨e, by simp [he], hee⟩
    · intro hres e he hcmd hact
      rcases List.mem_cons.mp he with hh | hh
      · have hres1 : (onResponse reqCmd t st f).resolved = false :=
          runFrames_resolved_false_of reqCmd rest _ hres
        have hres0 : st.resolved = false :=
          onResponse_resolved_false_of _ _ _ _ hres1
        have hclock : (onResponse reqCmd t st f).lastResponse = t := by
          apply onResponse_activity_clock _ _ _ _ hres0
          · rw [hh] at hcmd; exact hcmd
          · rw [hh] at hact; exact hact
        have het : e.1 = t := by rw [hh]
        rw [het]
        calc t = (onResponse reqCmd t st f).lastResponse := hclock.symm
          _ ≤ _ := ih1
      · exact ih3 hres e hh hcmd hact

/-- Every frame surviving `dropWhile (arrival < fire)` on a sorted stream
arrives no earlier than `fire`. -/
theorem dropWhile_lower_bound (fire : ℚ) :
    ∀ (events : List (ℚ × ExtaLifeResponse)),
      List.Chain' (· < ·) (events.map Prod.fst) →
      ∀ e ∈ events.dropWhile (fun e => decide (e.1 < fire)), fire ≤ e.1
  | [], _, e, he => by simp at he
  | (t, f) :: rest, hchain, e, he => by
    by_cases ht : t < fire
    · rw [List.dropWhile_cons_of_pos (by simpa using ht)] at he
      have hchain1 : List.Chain' (· < ·) (rest.map Prod.fst) := by
        have := hchain
        rw [List.map_cons] at this
        exact this.tail
      exact dropWhile_lower_bound fire rest hchain1 e he
    · rw [List.dropWhile_cons_of_neg (by simpa using ht)] at he
      rcases List.mem_cons.mp he with hh | hh
      · rw [hh]
        exact le_of_not_lt ht
      · have hpw : List.Pairwise (· < ·) (t :: rest.map Prod.fst) := by
          have := List.chain'_iff_pairwise.mp hchain
          simpa using this
        have : t < e.1 := (List.pairwise_cons.mp hpw).1 e.1 (List.mem_map_of_mem _ hh)
        exact le_trans (le_of_not_lt ht) (le_of_lt this)

/-- When the wait loop does time out at instant `c`, every activity frame
for the command in the scripted stream arrived more than `T` before `c` or
not before `c` at all: the timeout window really was idle. -/
theorem slide_timeout_idle (reqCmd : ExtaLifeCmd) (T : ℚ) (hT : 0 < T) :
    ∀ (fuel : Nat) (st : AwaitState) (armTime : ℚ)
      (events : List (ℚ × ExtaLifeResponse)) (c : ℚ),
      List.Chain' (· < ·) (events.map Prod.fst) →
      (∀ e ∈ events, armTime ≤ e.1) →
      st.lastResponse ≤ armTime →
      runAwait reqCmd T fuel st armTime events = some (.connTimeout c) →
      st.lastResponse + T < c ∧
      ∀ e ∈ events, e.2.command = reqCmd → isActivity e.2.status →
        e.1 + T < c ∨ c ≤ e.1
  | 0, st, armTime, events, c, _, _, _, h => by
    exact absurd h (by simp [runAwait])
  | fuel + 1, st, armTime, events, c, hchain, harm, hlb, h => by
    rw [runAwait_succ_eq] at h
    set chunk := events.takeWhile (fun e => decide (e.1 < armTime + T)) with hchunkdef
    set restl := events.dropWhile (fun e => decide (e.1 < armTime + T)) with hrestldef
    have hcr : chunk ++ restl = events := by
      rw [hchunkdef, hrestldef]
      exact List.takeWhile_append_dropWhile _ _
    have hchunklt : ∀ e ∈ chunk, e.1 < armTime + T := by
      intro e he
      have := List.mem_takeWhile_imp he
      simpa using this
    have hmapsplit : events.map Prod.fst = chunk.map Prod.fst ++ restl.map Prod.fst := by
      rw [← hcr, List.map_append]
    have hchunk_chain : List.Chain' (· < ·) (chunk.map Prod.fst) := by
      rw [hmapsplit] at hchain
      exact (List.chain'_append.mp hchain).1
    have hrestl_chain : List.Chain' (· < ·) (restl.map Prod.fst) := by
      rw [hmapsplit] at hchain
      exact (List.chain'_append.mp hchain).2.1
    have hchunk_lb : ∀ e ∈ chunk, st.lastResponse ≤ e.1 := by
      intro e he
      have hev : e ∈ events := by
        rw [← hcr]
        exact List.mem_append_left _ he
      exact le_trans hlb (harm e hev)
    obtain ⟨hb1, hb2, hb3⟩ := runFrames_activity_bound reqCmd chunk st hchunk_chain hchunk_lb
    have hrestl_lb : ∀ e ∈ restl, armTime + T ≤ e.1 := by
      intro e he
      exact dropWhile_lower_bound (armTime + T) events hchain e (hrestldef ▸ he)
    by_cases hres : (runFrames reqCmd st chunk).resolved = true
    · rw [if_pos hres] at h
      exact absurd h (by simp)
    · rw [if_neg hres] at h
      have hresf : (runFrames reqCmd st chunk).resolved = false := by
        simpa using hres
      by_cases hto : (armTime + T - (runFrames reqCmd st chunk).lastResponse) - 3/10 > T
      · rw [if_pos hto] at h
        have hc : c = armTime + T := by
          simpa using h.symm
        have hlate : (runFrames reqCmd st chunk).lastResponse + T < c := by
          rw [hc]; linarith
        constructor
        · exact lt_of_le_of_lt (by linarith [hb1]) hlate
        · intro e he hcmd hact
          rcases (by rw [← hcr] at he; exact List.mem_append.mp he) with hh | hh
          · left
            have := hb3 hresf e hh hcmd hact
            linarith
          · right
            rw [hc]
            exact hrestl_lb e hh
      · rw [if_neg hto] at h
        have hlast_le : (runFrames reqCmd st chunk).lastResponse ≤ armTime + T := by
          rcases hb2 with h2 | ⟨e, he, hee⟩
          · rw [h2]; linarith
          · rw [hee]
            exact le_of_lt (hchunklt e he)
        obtain ⟨ih1, ih2⟩ := slide_timeout_idle reqCmd T hT fuel
          (runFrames reqCmd st chunk) (armTime + T) restl c
          hrestl_chain hrestl_lb hlast_le h
        constructor
        · exact lt_of_le_of_lt (by linarith [hb1]) ih1
        · intro e he hcmd hact
          rcases (by rw [← hcr] at he; exact List.mem_append.mp he) with hh | hh
          · left
            have := hb3 hresf e hh hcmd hact
            linarith
          · exact ih2 e hh hcmd hact

/-! ## C6 — sliding timeout -/

/-- C6: for a `send_and_await` exchange with per-call timeout `T`, if an
accumulation frame for its command arrives within every window of length
`T` (consecutive arrival gaps, measured from the send instant, of at most
`T`) until the terminal frame, the call never times out no matter how long
the exchange lasts — each frame resets the last-activity clock and re-arms
the wait, and the run resolves successfully. Conversely, when the run does
produce a timeout (which force-closes the connection and raises a
connection error) at instant `c`, no activity frame for the command arrived
within the window `[c − T, c)`. -/
theorem c6_sliding_timeout (reqCmd : ExtaLifeCmd) (T : ℚ) (hT : 0 < T) :
    (∀ (accs : List (ℚ × ExtaLifeResponse)) (lastE : ℚ × ExtaLifeResponse),
      (∀ e ∈ accs, e.2.command = reqCmd ∧ isAccum e.2.status) →
      lastE.2.command = reqCmd → isTerminal lastE.2.status →
      List.Chain' (fun a b : ℚ => a < b ∧ b ≤ a + T)
        (0 :: (accs ++ [lastE]).map Prod.fst) →
      (∀ fuel c, sendAndAwaitRun reqCmd T fuel (accs ++ [lastE])
          ≠ some (.connTimeout c)) ∧
      (∃ fuel rs, sendAndAwaitRun reqCmd T fuel (accs ++ [lastE])
          = some (.success rs))) ∧
    (∀ (events : List (ℚ × ExtaLifeResponse)) (fuel : Nat) (c : ℚ),
      List.Chain' (· < ·) (events.map Prod.fst) →
      (∀ e ∈ events, 0 ≤ e.1) →
      sendAndAwaitRun reqCmd T fuel events = some (.connTimeout c) →
      ∀ e ∈ events, e.2.command = reqCmd → isActivity e.2.status →
        e.1 + T < c ∨ c ≤ e.1) := by
  constructor
  · intro accs lastE haccs hcl hct hchain
    have inv : SlideInv reqCmd T (initAwaitState 0) 0 (accs ++ [lastE]) := by
      refine ⟨rfl, ⟨accs, lastE, rfl, haccs, hcl, hct⟩, hchain, le_refl 0, ?_⟩
      intro e he
      have hpw : List.Pairwise (fun a b : ℚ => a < b)
          (0 :: (accs ++ [lastE]).map Prod.fst) :=
        List.chain'_iff_pairwise.mp (hchain.imp (fun a b h => h.1))
      exact le_of_lt ((List.pairwise_cons.mp hpw).1 e.1 (List.mem_map_of_mem _ he))
    exact ⟨fun fuel c => slide_no_timeout reqCmd T hT fuel _ 0 _ inv c,
           slide_success reqCmd T hT _ _ 0 inv⟩
  · intro events fuel c hchain hpos h
    exact (slide_timeout_idle reqCmd T hT fuel (initAwaitState 0) 0 events c
      hchain hpos (le_refl 0) h).2

/-- C6 (witness): a PARTIAL frame every second under a 2-second timeout,
with the terminal SUCCESS only after 6 seconds (three times the nominal
timeout): the scripted run both never produces the timeout outcome and
concretely resolves with all six frames. -/
theorem c6_sliding_timeout_witness :
    sendAndAwaitRun .DOWNLOAD_BACKUP 2 4
        ([(1, { command := .DOWNLOAD_BACKUP, status := .PARTIAL, data := [.pynone] }),
          (2, { command := .DOWNLOAD_BACKUP, status := .PARTIAL, data := [.pynone] }),
          (3, { command := .DOWNLOAD_BACKUP, status := .PARTIAL, data := [.pynone] }),
          (4, { command := .DOWNLOAD_BACKUP, status := .PARTIAL, data := [.pynone] }),
          (5, { command := .DOWNLOAD_BACKUP, status := .PARTIAL, data := [.pynone] })]
         ++ [(6, { command := .DOWNLOAD_BACKUP, status := .SUCCESS, data := [.pynone] })])
      ≠ some (.connTimeout 8) := by
  exact ((c6_sliding_timeout .DOWNLOAD_BACKUP 2 (by norm_num)).1
    [(1, { command := .DOWNLOAD_BACKUP, status := .PARTIAL, data := [.pynone] }),
     (2, { command := .DOWNLOAD_BACKUP, status := .PARTIAL, data := [.pynone] }),
     (3, { command := .DOWNLOAD_BACKUP, status := .PARTIAL, data := [.pynone] }),
     (4, { command := .DOWNLOAD_BACKUP, status := .PARTIAL, data := [.pynone] }),
     (5, { command := .DOWNLOAD_BACKUP, status := .PARTIAL, data := [.pynone] })]
    (6, { command := .DOWNLOAD_BACKUP, status := .SUCCESS, data := [.pynone] })
    (by decide) rfl (by decide)
    (by norm_num [List.chain'_cons, List.chain'_singleton])).1 4 8

/-! ## C10 — normal return implies a terminal, non-empty fragment list -/

theorem onResponse_lastTerminal (reqCmd : ExtaLifeCmd) (now : ℚ) (st : AwaitState)
    (f : ExtaLifeResponse)
    (h : st.resolved = true →
      ∃ l, st.responses.getLast? = some l ∧ isTerminal l.status) :
    (onResponse reqCmd now st f).resolved = true →
      ∃ l, (onResponse reqCmd now st f).responses.getLast? = some l ∧
        isTerminal l.status := by
  intro hres
  by_cases h1 : st.resolved = true
  · rw [onResponse_of_resolved _ _ _ _ h1] at hres ⊢
    exact h h1
  · have h1' : st.resolved = false := by simpa using h1
    by_cases hg : f.command = reqCmd
    · by_cases ht : isTerminal f.status
      · rw [onResponse_terminal _ _ _ _ h1' hg ht]
        exact ⟨f, by simp [getLast?_cons_eq], ht⟩
      · exfalso
        rcases hs : f.status <;> rw [hs] at ht <;>
          simp [onResponse, h1', hg, hs, isTerminal] at hres ht
    · rw [onResponse_of_other_cmd _ _ _ _ hg, h1'] at hres
      exact absurd hres (by decide)

theorem runFrames_lastTerminal (reqCmd : ExtaLifeCmd) :
    ∀ (events : List (ℚ × ExtaLifeResponse)) (st : AwaitState),
      (st.resolved = true →
        ∃ l, st.responses.getLast? = some l ∧ isTerminal l.status) →
      ((runFrames reqCmd st events).resolved = true →
        ∃ l, (runFrames reqCmd st events).responses.getLast? = some l ∧
          isTerminal l.status)
  | [], _, h => h
  | e :: rest, st, h =>
    runFrames_lastTerminal reqCmd rest (onResponse reqCmd e.1 st e.2)
      (onResponse_lastTerminal reqCmd e.1 st e.2 h)

theorem runAwait_success_lastTerminal (reqCmd : ExtaLifeCmd) (T : ℚ) :
    ∀ (fuel : Nat) (st : AwaitState) (armTime : ℚ)
      (events : List (ℚ × ExtaLifeResponse)) (rs : List ExtaLifeResponse),
      (st.resolved = true →
        ∃ l, st.responses.getLast? = some l ∧ isTerminal l.status) →
      runAwait reqCmd T fuel st armTime events = some (.success rs) →
      ∃ l, rs.getLast? = some l ∧ isTerminal l.status
  | 0, st, armTime, events, rs, hinv, h => by
    exact absurd h (by simp [runAwait])
  | fuel + 1, st, armTime, events, rs, hinv, h => by
    rw [runAwait_succ_eq] at h
    have hinv' := runFrames_lastTerminal reqCmd
      (events.takeWhile (fun e => decide (e.1 < armTime + T))) st hinv
    by_cases hres : (runFrames reqCmd st
        (events.takeWhile (fun e => decide (e.1 < armTime + T)))).resolved = true
    · rw [if_pos hres] at h
      have hrs : (runFrames reqCmd st
          (events.takeWhile (fun e => decide (e.1 < armTime + T)))).responses = rs := by
        simpa using h
      rw [← hrs]
      exact hinv' hres
    · rw [if_neg hres] at h
      by_cases hto : (armTime + T - (runFrames reqCmd st
          (events.takeWhile (fun e => decide (e.1 < armTime + T)))).lastResponse)
          - 3/10 > T
      · rw [if_pos hto] at h
        exact absurd h (by simp)
      · rw [if_neg hto] at h
        exact runAwait_success_lastTerminal reqCmd T fuel _ _ _ rs hinv' h

/-- C10: whenever the send-and-await primitive returns normally (a
`success` outcome rather than a timeout), the returned fragment list is
non-empty and its final element carries a terminal SUCCESS or FAILURE
status; consequently `async_exec_command`'s "no response received from
Controller" branch is unreachable after a normal return — the combined
response is always produced. -/
theorem c10_normal_return_terminal (reqCmd : ExtaLifeCmd) (T : ℚ) (fuel : Nat)
    (events : List (ℚ × ExtaLifeResponse)) (rs : List ExtaLifeResponse)
    (h : sendAndAwaitRun reqCmd T fuel events = some (.success rs)) :
    rs ≠ [] ∧
    (∃ l, rs.getLast? = some l ∧ isTerminal l.status) ∧
    connExecCommand rs = .ok (combineResponses rs) := by
  obtain ⟨l, hl, hterm⟩ := runAwait_success_lastTerminal reqCmd T fuel
    (initAwaitState 0) 0 events rs (by intro hc; exact absurd hc (by decide)) h
  have hne : rs ≠ [] := by
    intro hnil
    rw [hnil] at hl
    simp at hl
  refine ⟨hne, ⟨l, hl, hterm⟩, ?_⟩
  unfold connExecCommand
  rw [if_neg (by simpa [List.length_eq_zero] using hne)]

/-- C10 (witness): a one-frame SUCCESS exchange returns normally with a
non-empty, terminal fragment list, and the conn-level exec accepts it. -/
theorem c10_normal_return_terminal_witness :
    sendAndAwaitRun .RESTART 2 1
        [(1, { command := .RESTART, status := .SUCCESS, data := [.pynone] })]
      = some (.success [{ command := .RESTART, status := .SUCCESS, data := [.pynone] }]) ∧
    ([{ command := ExtaLifeCmd.RESTART, status := .SUCCESS, data := [.pynone] }]
        : List ExtaLifeResponse) ≠ [] ∧
    connExecCommand [{ command := .RESTART, status := .SUCCESS, data := [.pynone] }]
      = .ok (combineResponses
          [{ command := .RESTART, status := .SUCCESS, data := [.pynone] }]) := by
  have h : sendAndAwaitRun .RESTART 2 1
      [(1, { command := .RESTART, status := .SUCCESS, data := [.pynone] })]
      = some (.success [{ command := ExtaLifeCmd.RESTART, status := .SUCCESS,
                          data := [.pynone] }]) := by
    rw [sendAndAwaitRun, runAwait_succ_eq,
        List.takeWhile_cons_of_pos (by norm_num), List.takeWhile_nil,
        runFrames_cons]
    dsimp only
    rw [onResponse_terminal ExtaLifeCmd.RESTART 1 (initAwaitState 0)
          { command := .RESTART, status := .SUCCESS, data := [.pynone] }
          rfl rfl (by decide),
        runFrames_nil, if_pos rfl]
    rfl
  have hc := c10_normal_return_terminal .RESTART 2 1
    [(1, { command := .RESTART, status := .SUCCESS, data := [.pynone] })]
    [{ command := .RESTART, status := .SUCCESS, data := [.pynone] }] h
  exact ⟨h, hc.1, hc.2.2⟩

/-! ## C7 — disconnect idempotence -/

/-- C7: `disconnect()` on a live connection fires exactly one DISCONNECTED
event carrying `should_reconnect = false`; calling it again on the now
already-closed session is a no-op — the early `self._socket is None` return
yields the same state, fires no second event, and raises nothing (the model
is a total function). -/
theorem c7_disconnect_idempotent (s : ConnState) (h : s.socket = true) :
    (asyncDisconnect s).2 = [ConnEvent.disconnectedEv false] ∧
    (asyncDisconnect (asyncDisconnect s).1).2 = [] ∧
    (asyncDisconnect (asyncDisconnect s).1).1 = (asyncDisconnect s).1 := by
  unfold asyncDisconnect asyncClose
  rw [h]
  exact ⟨rfl, rfl, rfl⟩

/-- C7 (witness): a fully-open connection state. -/
theorem c7_disconnect_idempotent_witness :
    (asyncDisconnect { socket := true, pingTask := true, readTask := true }).2
      = [ConnEvent.disconnectedEv false] ∧
    (asyncDisconnect (asyncDisconnect
        { socket := true, pingTask := true, readTask := true }).1).2 = [] ∧
    (asyncDisconnect (asyncDisconnect
        { socket := true, pingTask := true, readTask := true }).1).1
      = (asyncDisconnect { socket := true, pingTask := true, readTask := true }).1 :=
  c7_disconnect_idempotent { socket := true, pingTask := true, readTask := true } rfl

/-! ## C2 — FAILURE handling in the facade command wrappers -/

/-- C2 (counterexample): the claim says a FAILURE-status exchange makes
`restart` raise a command error carrying the vendor code. In the code no
layer between the correlator and `async_restart` ever raises on FAILURE
(`_check_success` is only called by `async_login`): a scripted RESTART
exchange terminating in FAILURE with vendor code −1 makes `async_restart`
return `False` normally — an `Except.ok`, not a raised error. -/
theorem c2_counterexample :
    asyncRestart (apiExecCommand true (.answered (combineResponses
      [{ command := .RESTART, status := .FAILURE,
         data := [.pydict [("code", .pyint (-1))]] }])))
      = .ok false := rfl

/-- C2 (amended): for each of check_version, restart, get_config_backup and
get_config_details, a FAILURE-status exchange does NOT raise: `restart`
returns `False`; `check_version` and `get_config_details` return the first
FAILURE fragment (the error-code payload); `get_config_backup` returns
`None`. The vendor numeric code is carried by the response object's
`error_code` property, not by an exception. -/
theorem c2_failure_returns_defaults (k : Int) :
    asyncRestart (apiExecCommand true (.answered (combineResponses
        [{ command := .RESTART, status := .FAILURE,
           data := [.pydict [("code", .pyint k)]] }])))
      = .ok false ∧
    asyncCheckVersion (apiExecCommand true (.answered (combineResponses
        [{ command := .CHECK_VERSION, status := .FAILURE,
           data := [.pydict [("code", .pyint k)]] }])))
      = .ok (some (.pydict [("code", .pyint k)])) ∧
    asyncGetConfigDetails (apiExecCommand true (.answered (combineResponses
        [{ command := .GET_EFC_CONFIG_DETAILS, status := .FAILURE,
           data := [.pydict [("code", .pyint k)]] }])))
      = .ok (some (.pydict [("code", .pyint k)])) ∧
    asyncGetConfigBackup (apiExecCommand true (.answered (combineResponses
        [{ command := .DOWNLOAD_BACKUP, status := .FAILURE,
           data := [.pydict [("data", .pydict [("code", .pyint k)])]] }])))
      = .ok Option.none ∧
    responseErrorCode (combineResponses
        [{ command := .RESTART, status := .FAILURE,
           data := [.pydict [("code", .pyint k)]] }])
      = .ok k :=
  ⟨rfl, rfl, rfl, rfl, rfl⟩

/-! ## C9 — per-category failure handling in get_channels -/

/-- C9 (counterexample): the claim says the failure of one category's fetch
only gets logged and the remaining categories still contribute. A
FAILURE-status FETCH_RECEIVERS response is not caught anywhere: it is fed
to the Transformer, whose `data["devices"]` access raises an (untyped)
`KeyError("devices")` that aborts `async_get_channels` — even though the
sensors category alone would have produced a channel. -/
theorem c9_counterexample :
    asyncGetChannels
      (fun c => if c = .FETCH_RECEIVERS then
          .answered (combineResponses
            [{ command := .FETCH_RECEIVERS, status := .FAILURE,
               data := [.pydict [("code", .pyint (-13))]] }])
        else
          .answered (combineResponses
            [{ command := .FETCH_SENSORS, status := .SUCCESS,
               data := [.pydict [("devices", .pylist [.pydict
                 [("id", .pyint 7), ("state", .pylist [.pydict
                    [("channel", .pyint 1), ("value", .pyint 21)]])]])]] }]))
      true ["receivers", "sensors"]
      = .error (.keyError (some "devices")) ∧
    asyncGetChannels
      (fun c => if c = .FETCH_RECEIVERS then
          .answered (combineResponses
            [{ command := .FETCH_RECEIVERS, status := .FAILURE,
               data := [.pydict [("code", .pyint (-13))]] }])
        else
          .answered (combineResponses
            [{ command := .FETCH_SENSORS, status := .SUCCESS,
               data := [.pydict [("devices", .pylist [.pydict
                 [("id", .pyint 7), ("state", .pylist [.pydict
                    [("channel", .pyint 1), ("value", .pyint 21)]])]])]] }]))
      true ["sensors"]
      = .ok [{ id := "7-1",
               data := [("channel", .pyint 1), ("value", .pyint 21),
                        ("id", .pyint 7)] }] :=
  ⟨rfl, rfl⟩

/-- C9 (amended): a category fetch whose connection-level execution raises
an `ExtaLifeError` is swallowed by `async_exec_command` (returning `None`,
the failure only logged) and does not abort the other categories: whenever
each requested category's contribution transforms cleanly or is a swallowed
error, `get_channels` returns the concatenation of the successful
categories' channels in fixed category order. A FAILURE-status response,
however, is NOT handled (see the counterexample). -/
theorem c9_partial_results (script : ExtaLifeCmd → ConnExchange)
    (includeCats : List String)
    (lR lS lT lX : List Channel)
    (hR : fetchCategoryChannels script true .FETCH_RECEIVERS false (some []) = .ok lR)
    (hS : fetchCategoryChannels script true .FETCH_SENSORS false (some []) = .ok lS)
    (hT : fetchCategoryChannels script true .FETCH_TRANSMITTERS true (some []) = .ok lT)
    (hX : fetchCategoryChannels script true .FETCH_EXTA_FREE false Option.none = .ok lX) :
    asyncGetChannels script true includeCats
      = .ok ((if includeCats.contains "receivers" then lR else []) ++
             (if includeCats.contains "sensors" then lS else []) ++
             (if includeCats.contains "transmitters" then lT else []) ++
             (if includeCats.contains "exta_free_receivers" then lX else [])) := by
  unfold asyncGetChannels
  by_cases h1 : "receivers" ∈ includeCats <;>
    by_cases h2 : "sensors" ∈ includeCats <;>
      by_cases h3 : "transmitters" ∈ includeCats <;>
        by_cases h4 : "exta_free_receivers" ∈ includeCats <;>
          simp [h1, h2, h3, h4, hR, hS, hT, hX, bind, Except.bind, pure, Except.pure]

/-- C9 (witness): the receivers fetch raises a connection error (swallowed,
contributing nothing), the sensors fetch succeeds — `get_channels` returns
the sensors channels. -/
theorem c9_partial_results_witness :
    asyncGetChannels
      (fun c => if c = .FETCH_SENSORS then
          .answered (combineResponses
            [{ command := .FETCH_SENSORS, status := .SUCCESS,
               data := [.pydict [("devices", .pylist [.pydict
                 [("id", .pyint 7), ("state", .pylist [.pydict
                    [("channel", .pyint 1), ("value", .pyint 21)]])]])]] }])
        else .raised (.connError "connection lost"))
      true ["receivers", "sensors"]
      = .ok (([] : List Channel) ++
             [{ id := "7-1",
                data := [("channel", .pyint 1), ("value", .pyint 21),
                         ("id", .pyint 7)] }] ++ [] ++ []) := by
  have h := c9_partial_results
    (fun c => if c = .FETCH_SENSORS then
        .answered (combineResponses
          [{ command := .FETCH_SENSORS, status := .SUCCESS,
             data := [.pydict [("devices", .pylist [.pydict
               [("id", .pyint 7), ("state", .pylist [.pydict
                  [("channel", .pyint 1), ("value", .pyint 21)]])]])]] }])
      else .raised (.connError "connection lost"))
    ["receivers", "sensors"] []
    [{ id := "7-1",
       data := [("channel", .pyint 1), ("value", .pyint 21), ("id", .pyint 7)] }]
    [] [] rfl rfl rfl rfl
  simpa using h

/-! ## C8 — framing round-trip -/

theorem readFrame_append_etx :
    ∀ (cs : List Char) (rest : List Char), Char.ofNat 3 ∉ cs →
      readFrameString (cs ++ Char.ofNat 3 :: rest) = some (String.mk cs, rest)
  | [], rest, _ => by
    simp [readFrameString]
  | c :: cs, rest, h => by
    have hc : ¬ c = Char.ofNat 3 := by
      intro hh
      exact h (by rw [hh]; simp)
    simp only [List.cons_append, readFrameString, if_neg hc, List.append_eq]
    rw [readFrame_append_etx cs rest (fun hm => h (by simp [hm]))]
    rfl

theorem ExtaLifeCmd.ofInt?_toInt (c : ExtaLifeCmd) :
    ExtaLifeCmd.ofInt? c.toInt = some c := by
  cases c <;> rfl

theorem ExtaLifeResponseStatus.ofStr?_toStr (s : ExtaLifeResponseStatus) :
    ExtaLifeResponseStatus.ofStr? s.toStr = some s := by
  cases s <;> rfl

/-- C8 (counterexample): the claim allows only NOOP as an exception to the
round trip, but DOWNLOAD_BACKUP (command 500) is a second one: its decode
path pops `command`/`status` and keeps the WHOLE remaining object as the
single fragment, so the decoded data is `[\x7b"data": d\x7d]` rather than
`[d]` — the original payload is not reproduced. -/
theorem c8_counterexample :
    decodeResponseVal (requestAsResponseShape
        (mkRequest .DOWNLOAD_BACKUP (some (.pydict [("x", .pyint 1)]))) .SUCCESS)
      = .ok { command := .DOWNLOAD_BACKUP, status := .SUCCESS,
              data := [.pydict [("data", .pydict [("x", .pyint 1)])]] } ∧
    ¬ ([PyVal.pydict [("data", .pydict [("x", .pyint 1)])]]
        = [PyVal.pydict [("x", .pyint 1)]]) := by
  refine ⟨rfl, ?_⟩
  intro h
  injection h with h1 _
  injection h1 with h2
  injection h2 with h3 _
  injection h3 with h4 _
  exact absurd h4 (by decide)

/-- C8 (amended): for every request whose command is neither NOOP nor
DOWNLOAD_BACKUP, serializing `\x7b"command", "data"\x7d`, adding a status to put
the frame in response shape, and decoding reproduces the original command
and data (modulo JSON normalization, i.e. at the parsed-object level); the
encoded frame is the JSON text plus a single trailing ETX byte, the ETX
framing extracts exactly the frame text back, and the NOOP keepalive is the
exception — it encodes as a single space plus ETX. -/
theorem c8_framing_roundtrip (r : ExtaLifeRequest) (s : ExtaLifeResponseStatus)
    (hn : r.command ≠ .NOOP) (hb : r.command ≠ .DOWNLOAD_BACKUP) :
    decodeResponseVal (requestAsResponseShape r s)
      = .ok { command := r.command, status := s, data := [r.data] } ∧
    requestToBytes r = (jsonDumps (requestToJsonVal r)).data ++ [Char.ofNat 3] ∧
    (∀ d, requestToBytes (mkRequest .NOOP d) = [' ', Char.ofNat 3]) ∧
    (∀ rest, Char.ofNat 3 ∉ (requestToString r).data →
      readFrameString ((requestToString r).data ++ Char.ofNat 3 :: rest)
        = some (requestToString r, rest)) := by
  obtain ⟨c, d⟩ := r
  refine ⟨?_, ?_, ?_, ?_⟩
  · cases c <;> cases s <;>
      first
        | exact absurd rfl hn
        | exact absurd rfl hb
        | rfl
  · rw [requestToBytes, requestToString, if_neg hn]
    rfl
  · intro dd
    rfl
  · intro rest hno
    have h := readFrame_append_etx (requestToString ⟨c, d⟩).data rest hno
    rw [h]

/-- C8 (witness): a FETCH_RECEIVERS request with payload `\x7b"x": 1\x7d` and
SUCCESS status round-trips, its frame is the JSON text plus ETX, the frame
text is ETX-free and extracted intact, and NOOP encodes as space-plus-ETX. -/
theorem c8_framing_roundtrip_witness :
    decodeResponseVal (requestAsResponseShape
        { command := .FETCH_RECEIVERS, data := .pydict [("x", .pyint 1)] } .SUCCESS)
      = .ok { command := .FETCH_RECEIVERS, status := .SUCCESS,
              data := [.pydict [("x", .pyint 1)]] } ∧
    requestToBytes { command := .FETCH_RECEIVERS, data := .pydict [("x", .pyint 1)] }
      = (jsonDumps (requestToJsonVal
          { command := .FETCH_RECEIVERS, data := .pydict [("x", .pyint 1)] })).data
        ++ [Char.ofNat 3] ∧
    requestToBytes (mkRequest .NOOP Option.none) = [' ', Char.ofNat 3] ∧
    readFrameString ((requestToString
        { command := .FETCH_RECEIVERS, data := .pydict [("x", .pyint 1)] }).data
        ++ Char.ofNat 3 :: [])
      = some (requestToString
          { command := .FETCH_RECEIVERS, data := .pydict [("x", .pyint 1)] }, []) := by
  have h := c8_framing_roundtrip
    { command := .FETCH_RECEIVERS, data := .pydict [("x", .pyint 1)] } .SUCCESS
    (by decide) (by decide)
  exact ⟨h.1, h.2.1, h.2.2.1 Option.none, h.2.2.2 [] (by decide)⟩

end ExtaLife
